import Mathlib

/-!
Verification of the deduplication / caching / rate-limiting core of the
lana-ai backend (FastAPI application, `backend/main.py` and
`backend/app/...`).  Python code is shallowly embedded: stateful objects
become explicit state values threaded through pure functions, wall-clock
time becomes an explicit `Int` parameter, and calls to external services
(Groq LLM, Redis) become explicit outcome parameters.
-/

namespace Spec2Proof

/-! ## cachetools.TTLCache model

`MemoryCacheRepository` (backend/app/repositories/memory_cache_repository.py)
stores one `cachetools.TTLCache` per namespace.  A `TTLCache` keeps entries
in insertion/refresh order together with an absolute expiry time
`expires = now + ttl`; an entry is expired as soon as `expires ≤ now`
(cachetools checks `not (link.expires > time)`).  `__setitem__` first drops
expired entries, then, for a new key, pops oldest entries while the cache
would overflow `maxsize`; inserting into a cache with `maxsize = 0` raises
`ValueError` (modelled as `none`). -/

structure TTLEntry (α : Type) where
  key : String
  value : α
  expires : Int
  deriving Repr, DecidableEq

structure TTLCacheM (α : Type) where
  maxsize : Nat
  ttl : Int
  entries : List (TTLEntry α)
  deriving Repr, DecidableEq

namespace TTLCacheM

/-- Unexpired entries at time `now` (what `self.expire(time)` keeps). -/
def live {α : Type} (c : TTLCacheM α) (now : Int) : List (TTLEntry α) :=
  c.entries.filter (fun e => now < e.expires)

/-- Model of `TTLCache.get` / `__getitem__`: the stored value if the key is
present and unexpired, otherwise `None`. -/
def getItem {α : Type} (c : TTLCacheM α) (k : String) (now : Int) : Option α :=
  match c.entries.find? (fun e => e.key == k) with
  | some e => if now < e.expires then some e.value else none
  | none => none

/-- Model of `TTLCache.__setitem__`: expire, evict oldest while full (new
key only), then insert/refresh at the end with `expires = now + ttl`.
`none` models the `ValueError` raised when `maxsize = 0`. -/
def setItem {α : Type} (c : TTLCacheM α) (k : String) (v : α) (now : Int) :
    Option (TTLCacheM α) :=
  if c.maxsize = 0 then none
  else
    let es := c.entries.filter (fun e => now < e.expires)
    if es.any (fun e => e.key == k) then
      some { c with entries := es.filter (fun e => e.key != k) ++ [⟨k, v, now + c.ttl⟩] }
    else
      some { c with entries := es.drop (es.length + 1 - c.maxsize) ++ [⟨k, v, now + c.ttl⟩] }

end TTLCacheM

/-! ## MemoryCacheRepository model

backend/app/repositories/memory_cache_repository.py.  The stats counters
(hits/misses/errors) are bookkeeping only and are omitted; everything that
touches entries is modelled.  `get` and `set` return the updated repository
because `_get_cache` creates the namespace on first touch. -/

structure MemoryCacheRepository (α : Type) where
  caches : List (String × TTLCacheM α)
  default_ttl : Int
  default_maxsize : Nat
  deriving Repr, DecidableEq

namespace MemoryCacheRepository

/-- Model of `MemoryCacheRepository.__init__(default_ttl=3600, maxsize=1000)`. -/
def init (α : Type) (default_ttl : Int) (maxsize : Nat) : MemoryCacheRepository α :=
  ⟨[], default_ttl, maxsize⟩

/-- The cache registered for a namespace, if any (`namespace in self._caches`). -/
def lookupNs {α : Type} (r : MemoryCacheRepository α) (ns : String) :
    Option (TTLCacheM α) :=
  (r.caches.find? (fun p => p.1 == ns)).map Prod.snd

/-- Model of `_get_cache`: return the namespace cache, creating a fresh
`TTLCache(maxsize=self._default_maxsize, ttl=self._default_ttl)` on first use. -/
def getCacheOf {α : Type} (r : MemoryCacheRepository α) (ns : String) :
    MemoryCacheRepository α × TTLCacheM α :=
  match r.lookupNs ns with
  | some c => (r, c)
  | none =>
    let c : TTLCacheM α := ⟨r.default_maxsize, r.default_ttl, []⟩
    ({ r with caches := r.caches ++ [(ns, c)] }, c)

/-- Overwrite the cache stored under namespace `ns` (`self._caches[namespace] = ...`). -/
def updateNs {α : Type} (r : MemoryCacheRepository α) (ns : String) (c : TTLCacheM α) :
    MemoryCacheRepository α :=
  { r with caches := r.caches.map (fun p => if p.1 == ns then (ns, c) else p) }

/-- Model of `MemoryCacheRepository.get(key, namespace)` at time `now`. -/
def get {α : Type} (r : MemoryCacheRepository α) (k : String) (ns : String) (now : Int) :
    MemoryCacheRepository α × Option α :=
  let rc := r.getCacheOf ns
  (rc.1, rc.2.getItem k now)

/-- Model of `MemoryCacheRepository.set(key, value, ttl, namespace)` at time
`now`.  With a truthy positive `ttl` the code builds a fresh
`TTLCache(maxsize=cache.maxsize, ttl=ttl)` holding only the new key and
installs it as the namespace cache; otherwise it writes through the existing
cache.  The `Bool` is the returned success flag (`False` when the insert
raised, i.e. `maxsize = 0`). -/
def set {α : Type} (r : MemoryCacheRepository α) (k : String) (v : α)
    (ttl : Option Int) (ns : String) (now : Int) :
    MemoryCacheRepository α × Bool :=
  let rc := r.getCacheOf ns
  let r1 := rc.1
  let cache := rc.2
  let wantsFreshTtl : Bool := match ttl with
    | some t => t > 0
    | none => false
  if wantsFreshTtl then
    let t := ttl.getD 0
    let temp : TTLCacheM α := ⟨cache.maxsize, t, []⟩
    match temp.setItem k v now with
    | some temp2 => (r1.updateNs ns temp2, true)
    | none => (r1, false)
  else
    match cache.setItem k v now with
    | some c2 => (r1.updateNs ns c2, true)
    | none => (r1, false)

end MemoryCacheRepository

/-! ## List lemmas shared by the cache proofs -/

theorem find?_filter_of_find? {β : Type} (p q : β → Bool) (l : List β) (a : β)
    (h : l.find? p = some a) (hq : q a = true) : (l.filter q).find? p = some a := by
  induction l with
  | nil => simp [List.find?] at h
  | cons x t ih =>
    by_cases hx : p x
    · rw [List.find?_cons_of_pos _ hx] at h
      cases h
      simp [List.filter_cons, hq, List.find?_cons_of_pos _ hx]
    · rw [List.find?_cons_of_neg _ (by simpa using hx)] at h
      by_cases hqx : q x
      · simp [List.filter_cons, hqx, List.find?_cons_of_neg _ (by simpa using hx), ih h]
      · rw [List.filter_cons, if_neg hqx]
        exact ih h


theorem find?_append_of_some {β : Type} (p : β → Bool) (l1 l2 : List β) (a : β)
    (h : l1.find? p = some a) : (l1 ++ l2).find? p = some a := by
  induction l1 with
  | nil => simp [List.find?] at h
  | cons x t ih =>
    by_cases hx : p x
    · rw [List.find?_cons_of_pos _ hx] at h
      cases h
      simp [List.find?_cons_of_pos _ hx]
    · rw [List.find?_cons_of_neg _ (by simpa using hx)] at h
      rw [List.cons_append, List.find?_cons_of_neg _ (by simpa using hx)]
      exact ih h

theorem find?_append_of_none {β : Type} (p : β → Bool) (l1 l2 : List β)
    (h : l1.find? p = none) : (l1 ++ l2).find? p = l2.find? p := by
  induction l1 with
  | nil => simp
  | cons x t ih =>
    by_cases hx : p x
    · rw [List.find?_cons_of_pos _ hx] at h
      cases h
    · rw [List.find?_cons_of_neg _ (by simpa using hx)] at h
      rw [List.cons_append, List.find?_cons_of_neg _ (by simpa using hx)]
      exact ih h

theorem find?_cons_pos {β : Type} (pr : β → Bool) (x : β) (t : List β)
    (h : pr x = true) : (x :: t).find? pr = some x :=
  List.find?_cons_of_pos _ h

theorem find?_cons_neg {β : Type} (pr : β → Bool) (x : β) (t : List β)
    (h : pr x = false) : (x :: t).find? pr = t.find? pr :=
  List.find?_cons_of_neg _ (by simp [h])

namespace MemoryCacheRepository

theorem lookupNs_updateNs_self {α : Type} (r : MemoryCacheRepository α) (ns : String)
    (c : TTLCacheM α) (h : (r.lookupNs ns).isSome) :
    (r.updateNs ns c).lookupNs ns = some c := by
  rcases r with ⟨l, dttl, dmax⟩
  simp only [lookupNs, updateNs] at *
  induction l with
  | nil => simp [List.find?] at h
  | cons p t ih =>
    by_cases hp : p.1 == ns
    · rw [List.map_cons, if_pos hp,
        find?_cons_pos (fun p : String × TTLCacheM α => p.1 == ns) _ _ (by simp)]
      rfl
    · have hb : (p.1 == ns) = false := by simpa using hp
      rw [find?_cons_neg (fun p : String × TTLCacheM α => p.1 == ns) _ _ hb] at h
      rw [List.map_cons, if_neg (by simp [hb]),
        find?_cons_neg (fun p : String × TTLCacheM α => p.1 == ns) _ _ hb]
      exact ih h

theorem lookupNs_updateNs_other {α : Type} (r : MemoryCacheRepository α) (ns ns' : String)
    (c : TTLCacheM α) (h : ns' ≠ ns) :
    (r.updateNs ns c).lookupNs ns' = r.lookupNs ns' := by
  rcases r with ⟨l, dttl, dmax⟩
  simp only [lookupNs, updateNs]
  induction l with
  | nil => simp
  | cons p t ih =>
    by_cases hp : p.1 == ns
    · have hps : p.1 = ns := by simpa using hp
      have hne : ((ns : String) == ns') = false := by
        simp only [beq_eq_false_iff_ne, ne_eq]
        exact fun hh => h hh.symm
      have hne2 : (p.1 == ns') = false := by rw [hps]; exact hne
      rw [List.map_cons, if_pos hp,
        find?_cons_neg (fun p : String × TTLCacheM α => p.1 == ns') _ _ hne,
        find?_cons_neg (fun p : String × TTLCacheM α => p.1 == ns') _ _ hne2]
      exact ih
    · by_cases hq : p.1 == ns'
      · rw [List.map_cons, if_neg (by simpa using hp),
          find?_cons_pos (fun p : String × TTLCacheM α => p.1 == ns') _ _ hq,
          find?_cons_pos (fun p : String × TTLCacheM α => p.1 == ns') _ _ hq]
      · have hqb : (p.1 == ns') = false := by simpa using hq
        rw [List.map_cons, if_neg (by simpa using hp),
          find?_cons_neg (fun p : String × TTLCacheM α => p.1 == ns') _ _ hqb,
          find?_cons_neg (fun p : String × TTLCacheM α => p.1 == ns') _ _ hqb]
        exact ih

theorem lookupNs_getCacheOf {α : Type} (r : MemoryCacheRepository α) (ns : String) :
    ((r.getCacheOf ns).1).lookupNs ns = some (r.getCacheOf ns).2 := by
  rcases hr : r.lookupNs ns with _ | c
  · have h2 : r.caches.find? (fun p => p.1 == ns) = none := by
      rcases hfind : r.caches.find? (fun p => p.1 == ns) with _ | q
      · exact hfind
      · simp only [lookupNs, hfind] at hr
        simp at hr
    have h1 : r.getCacheOf ns =
        ({ r with caches := r.caches ++
            [(ns, ⟨r.default_maxsize, r.default_ttl, []⟩)] },
          (⟨r.default_maxsize, r.default_ttl, []⟩ : TTLCacheM α)) := by
      simp [getCacheOf, hr]
    rw [h1]
    simp only [lookupNs]
    rw [find?_append_of_none _ _ _ h2,
      find?_cons_pos (fun p : String × TTLCacheM α => p.1 == ns) _ _ (by simp)]
    rfl
  · simp [getCacheOf, hr]

theorem getCacheOf_of_lookup {α : Type} (r : MemoryCacheRepository α) (ns : String)
    (c : TTLCacheM α) (h : r.lookupNs ns = some c) : r.getCacheOf ns = (r, c) := by
  simp [getCacheOf, h]


theorem get_eq_of_lookup {α : Type} (r : MemoryCacheRepository α) (ns k : String)
    (now : Int) (c : TTLCacheM α) (h : r.lookupNs ns = some c) :
    r.get k ns now = (r, c.getItem k now) := by
  simp [get, getCacheOf_of_lookup _ _ _ h]

theorem set_pos_ttl_eq {α : Type} (r : MemoryCacheRepository α) (ns k : String)
    (v : α) (t ttlv : Int)
    (hmax : (r.getCacheOf ns).2.maxsize ≠ 0) (hpos : 0 < ttlv) :
    r.set k v (some ttlv) ns t =
      ((r.getCacheOf ns).1.updateNs ns
        ⟨(r.getCacheOf ns).2.maxsize, ttlv, [⟨k, v, t + ttlv⟩]⟩, true) := by
  simp [set, TTLCacheM.setItem, hpos, hmax]

end MemoryCacheRepository

/-- C3: in `MemoryCacheRepository`, `set(ns, k, v, ttl=60)` at time `t`
followed by an immediate `get(ns, k)` returns `v`; any `get(ns, k)` at a
time `t + 60` or later returns absent; and, in general, `get` never returns
a value from an entry whose `expires_at` has passed. -/
theorem C3_cache_roundtrip {α : Type} (r : MemoryCacheRepository α) (ns k : String)
    (v : α) (t : Int) (hmax : (r.getCacheOf ns).2.maxsize ≠ 0) :
    ((((r.set k v (some 60) ns t).1.get k ns t).2 = some v)
    ∧ (∀ t', t + 60 ≤ t' → (((r.set k v (some 60) ns t).1.get k ns t').2 = none)))
    ∧ (∀ (r' : MemoryCacheRepository α) (ns' k' : String) (now : Int)
        (c : TTLCacheM α) (e : TTLEntry α),
        r'.lookupNs ns' = some c →
        c.entries.find? (fun e2 => e2.key == k') = some e →
        e.expires ≤ now → (r'.get k' ns' now).2 = none) := by
  constructor
  · have hset := MemoryCacheRepository.set_pos_ttl_eq r ns k v t 60 hmax (by norm_num)
    have hsome : (((r.getCacheOf ns).1).lookupNs ns).isSome := by
      rw [MemoryCacheRepository.lookupNs_getCacheOf]; rfl
    have hlook : ((r.set k v (some 60) ns t).1).lookupNs ns =
        some ⟨(r.getCacheOf ns).2.maxsize, 60, [⟨k, v, t + 60⟩]⟩ := by
      rw [hset]
      exact MemoryCacheRepository.lookupNs_updateNs_self _ _ _ hsome
    constructor
    · rw [MemoryCacheRepository.get_eq_of_lookup _ _ _ _ _ hlook]
      simp [TTLCacheM.getItem, List.find?]
    · intro t' ht'
      rw [MemoryCacheRepository.get_eq_of_lookup _ _ _ _ _ hlook]
      simp only [TTLCacheM.getItem, List.find?]
      simp only [beq_self_eq_true]
      have : ¬ (t' < t + 60) := by omega
      simp [this]
  · intro r' ns' k' now c e hlk hfind hexp
    rw [MemoryCacheRepository.get_eq_of_lookup _ _ _ _ _ hlk]
    simp only [TTLCacheM.getItem, hfind]
    have : ¬ (now < e.expires) := by omega
    simp [this]

/-- Witness for C3 at concrete inputs. -/
theorem C3_cache_roundtrip_witness :
    ((((MemoryCacheRepository.init Nat 3600 1000).set "key" 1 (some 60) "lessons" 0).1.get
        "key" "lessons" 0).2 = some 1)
    ∧ ((((MemoryCacheRepository.init Nat 3600 1000).set "key" 1 (some 60) "lessons" 0).1.get
        "key" "lessons" 60).2 = none)
    ∧ (((⟨[("n", ⟨10, 3600, [⟨"a", 2, 5⟩]⟩)], 3600, 1000⟩ : MemoryCacheRepository Nat).get
        "a" "n" 5).2 = none) := by
  refine ⟨(C3_cache_roundtrip (MemoryCacheRepository.init Nat 3600 1000) "lessons" "key" 1 0
      (by decide)).1.1, (C3_cache_roundtrip (MemoryCacheRepository.init Nat 3600 1000)
      "lessons" "key" 1 0 (by decide)).1.2 60 (by norm_num),
    (C3_cache_roundtrip (MemoryCacheRepository.init Nat 3600 1000) "lessons" "key" 1 0
      (by decide)).2 _ "n" "a" 5 ⟨10, 3600, [⟨"a", 2, 5⟩]⟩ ⟨"a", 2, 5⟩ (by decide)
      (by decide) (by norm_num)⟩

theorem length_filter_not_lt {β : Type} (p : β → Bool) (l : List β)
    (h : l.any p = true) : (l.filter (fun x => ! p x)).length < l.length := by
  induction l with
  | nil => simp at h
  | cons x t ih =>
    by_cases hx : p x
    · rw [List.filter_cons, if_neg (by simp [hx])]
      have := List.length_filter_le (fun x => ! p x) t
      simp only [List.length_cons]
      omega
    · have hb : p x = false := by simpa using hx
      rw [List.any_cons, hb, Bool.false_or] at h
      rw [List.filter_cons, if_pos (by simp [hb])]
      simp only [List.length_cons]
      exact Nat.succ_lt_succ (ih h)

namespace TTLCacheM

theorem getItem_setItem_other {α : Type} (c : TTLCacheM α) (k1 k2 : String)
    (v1 : α) (v2 : α) (now : Int) (hne : k1 ≠ k2)
    (hlive : c.getItem k1 now = some v1)
    (hroom : (c.live now).length < c.maxsize) :
    ∃ c2, c.setItem k2 v2 now = some c2 ∧ c2.getItem k1 now = some v1 := by
  have hmz : ¬ (c.maxsize = 0) := by omega
  simp only [getItem] at hlive
  rcases hf : c.entries.find? (fun e => e.key == k1) with _ | e
  · simp only [hf] at hlive
    cases hlive
  · simp only [hf] at hlive
    by_cases hlt : now < e.expires
    · rw [if_pos hlt] at hlive
      have hval : e.value = v1 := by
        injection hlive
      have hkey : (e.key == k1) = true := by
        have := List.find?_some hf
        simpa using this
      have hkeyeq : e.key = k1 := by simpa using hkey
      have hfes : (c.entries.filter (fun e => now < e.expires)).find?
          (fun e => e.key == k1) = some e :=
        find?_filter_of_find? _ _ _ _ hf (by simp [hlt])
      simp only [setItem, if_neg hmz]
      by_cases hany : (c.entries.filter (fun e => now < e.expires)).any
          (fun e => e.key == k2)
      · refine ⟨_, by rw [if_pos hany], ?_⟩
        simp only [getItem]
        have hfes2 : ((c.entries.filter (fun e => now < e.expires)).filter
            (fun e => e.key != k2)).find? (fun e => e.key == k1) = some e := by
          refine find?_filter_of_find? _ _ _ _ hfes ?_
          simp [hkeyeq]
          exact hne
        rw [find?_append_of_some _ _ _ _ hfes2]
        show (if now < e.expires then some e.value else none) = some v1
        rw [if_pos hlt, hval]
      · refine ⟨_, by rw [if_neg hany], ?_⟩
        simp only [getItem]
        have hlen : (c.entries.filter (fun e => now < e.expires)).length + 1
            - c.maxsize = 0 := by
          have : (c.live now).length =
              (c.entries.filter (fun e => now < e.expires)).length := rfl
          omega
        rw [hlen, List.drop_zero, find?_append_of_some _ _ _ _ hfes]
        show (if now < e.expires then some e.value else none) = some v1
        rw [if_pos hlt, hval]
    · rw [if_neg hlt] at hlive
      cases hlive

end TTLCacheM

/-- C8 counterexample: in namespace `"ns"` set key `"k1"` with `ttl=60` at
time 0 (it is then readable), then set a *different* key `"k2"` with
`ttl=60`, still at time 0.  Key `"k1"` is unexpired (expires at 60) and the
namespace is far below its capacity of 1000, yet `get("ns", "k1")` now
returns absent: `set` with a positive ttl replaces the whole namespace
cache with a fresh one holding only the new key. -/
theorem C8_frame_counterexample :
    ((((MemoryCacheRepository.init Nat 3600 1000).set "k1" 1 (some 60)
        "ns" 0).1.get "k1" "ns" 0).2 = some 1)
    ∧ (((((MemoryCacheRepository.init Nat 3600 1000).set "k1" 1 (some 60)
        "ns" 0).1.set "k2" 2 (some 60) "ns" 0).1.get "k1" "ns" 0).2 = none) := by
  decide

/-- C8 (amended): a `set` with `ttl=None` (or a non-positive ttl) affects
only its own key: every other key `k1 ≠ k2` whose entry is unexpired, in a
namespace with spare capacity (so no capacity eviction fires), is still
returned by `get` afterwards.  A `set` with a *positive* ttl instead
replaces the entire namespace cache, leaving only the new key `k2`. -/
theorem C8_set_frame {α : Type} (r : MemoryCacheRepository α) (ns k1 k2 : String)
    (v1 v2 : α) (now : Int) (c : TTLCacheM α)
    (hlk : r.lookupNs ns = some c) (hne : k1 ≠ k2)
    (hlive : c.getItem k1 now = some v1)
    (hroom : (c.live now).length < c.maxsize) :
    (((r.set k2 v2 none ns now).1.get k1 ns now).2 = some v1)
    ∧ (∀ t : Int, 0 < t → ((r.set k2 v2 (some t) ns now).1.lookupNs ns) =
        some ⟨c.maxsize, t, [⟨k2, v2, now + t⟩]⟩) := by
  have hsomelk : (r.lookupNs ns).isSome := by rw [hlk]; rfl
  constructor
  · obtain ⟨c2, hsi, hgi⟩ :=
      TTLCacheM.getItem_setItem_other c k1 k2 v1 v2 now hne hlive hroom
    have hset : r.set k2 v2 none ns now = (r.updateNs ns c2, true) := by
      simp [MemoryCacheRepository.set,
        MemoryCacheRepository.getCacheOf_of_lookup _ _ _ hlk, hsi]
    rw [hset]
    rw [MemoryCacheRepository.get_eq_of_lookup _ _ _ _ c2
      (MemoryCacheRepository.lookupNs_updateNs_self _ _ _ hsomelk)]
    exact hgi
  · intro t ht
    have hmax : (r.getCacheOf ns).2.maxsize ≠ 0 := by
      rw [MemoryCacheRepository.getCacheOf_of_lookup _ _ _ hlk]
      show c.maxsize ≠ 0
      omega
    have hset := MemoryCacheRepository.set_pos_ttl_eq r ns k2 v2 now t hmax ht
    rw [MemoryCacheRepository.getCacheOf_of_lookup _ _ _ hlk] at hset
    rw [hset]
    exact MemoryCacheRepository.lookupNs_updateNs_self _ _ _ hsomelk

/-- Witness for C8_set_frame at concrete inputs. -/
theorem C8_set_frame_witness :
    ((((⟨[("ns", ⟨1000, 3600, [⟨"k1", 1, 60⟩]⟩)], 3600, 1000⟩ :
        MemoryCacheRepository Nat).set "k2" 2 none "ns" 0).1.get
        "k1" "ns" 0).2 = some 1)
    ∧ ((((⟨[("ns", ⟨1000, 3600, [⟨"k1", 1, 60⟩]⟩)], 3600, 1000⟩ :
        MemoryCacheRepository Nat).set "k2" 2 (some 60) "ns" 0).1.lookupNs "ns") =
        some ⟨1000, 60, [⟨"k2", 2, 60⟩]⟩) := by
  have h := C8_set_frame
    (⟨[("ns", ⟨1000, 3600, [⟨"k1", 1, 60⟩]⟩)], 3600, 1000⟩ : MemoryCacheRepository Nat)
    "ns" "k1" "k2" 1 2 0 ⟨1000, 3600, [⟨"k1", 1, 60⟩]⟩
    (by decide) (by decide) (by decide) (by decide)
  exact ⟨h.1, by simpa using h.2 60 (by norm_num)⟩

namespace TTLCacheM

theorem setItem_spec {α : Type} (c : TTLCacheM α) (k : String) (v : α) (now : Int)
    (hm : 0 < c.maxsize) (hlen : c.entries.length ≤ c.maxsize) :
    ∃ c2, c.setItem k v now = some c2 ∧ c2.maxsize = c.maxsize ∧
      c2.entries.length ≤ c.maxsize := by
  have hmz : ¬ (c.maxsize = 0) := by omega
  simp only [setItem, if_neg hmz]
  by_cases hany : (c.entries.filter (fun e => now < e.expires)).any
      (fun e => e.key == k)
  · refine ⟨⟨c.maxsize, c.ttl, (c.entries.filter (fun e => now < e.expires)).filter
        (fun e => e.key != k) ++ [⟨k, v, now + c.ttl⟩]⟩,
      by rw [if_pos hany], rfl, ?_⟩
    have h1 : ((c.entries.filter (fun e => now < e.expires)).filter
        (fun e => e.key != k)).length
        < (c.entries.filter (fun e => now < e.expires)).length :=
      length_filter_not_lt (fun e : TTLEntry α => e.key == k) _ hany
    have h2 : (c.entries.filter (fun e => now < e.expires)).length ≤
        c.entries.length := List.length_filter_le _ _
    simp only [List.length_append, List.length_cons, List.length_nil]
    omega
  · refine ⟨⟨c.maxsize, c.ttl, (c.entries.filter (fun e => now < e.expires)).drop
        ((c.entries.filter (fun e => now < e.expires)).length + 1 - c.maxsize)
        ++ [⟨k, v, now + c.ttl⟩]⟩,
      by rw [if_neg hany], rfl, ?_⟩
    simp only [List.length_append, List.length_cons, List.length_nil,
      List.length_drop]
    omega

end TTLCacheM

namespace MemoryCacheRepository

theorem lookupNs_getCacheOf_other {α : Type} (r : MemoryCacheRepository α)
    (ns ns' : String) (h : ns' ≠ ns) :
    ((r.getCacheOf ns).1).lookupNs ns' = r.lookupNs ns' := by
  rcases hr : r.lookupNs ns with _ | c
  · have h1 : r.getCacheOf ns =
        ({ r with caches := r.caches ++
            [(ns, ⟨r.default_maxsize, r.default_ttl, []⟩)] },
          (⟨r.default_maxsize, r.default_ttl, []⟩ : TTLCacheM α)) := by
      simp [getCacheOf, hr]
    rw [h1]
    simp only [lookupNs]
    rcases hfind : r.caches.find? (fun p => p.1 == ns') with _ | q
    · rw [find?_append_of_none _ _ _ hfind, hfind,
        find?_cons_neg (fun p : String × TTLCacheM α => p.1 == ns') _ _
          (by simp only [beq_eq_false_iff_ne, ne_eq]
              exact fun hh => h hh.symm)]
      rfl
    · rw [find?_append_of_some _ _ _ _ hfind, hfind]
  · simp [getCacheOf, hr]

/-- Capacity invariant: every namespace cache has the repository maxsize `m`
and at most `m` entries. -/
def Bounded {α : Type} (m : Nat) (r : MemoryCacheRepository α) : Prop :=
  r.default_maxsize = m ∧
  ∀ ns c, r.lookupNs ns = some c → c.maxsize = m ∧ c.entries.length ≤ m

theorem set_preserves_bounded {α : Type} (m : Nat) (hm : 0 < m)
    (r : MemoryCacheRepository α) (k : String) (v : α) (ttl : Option Int)
    (ns : String) (now : Int) (hb : Bounded m r) :
    Bounded m (r.set k v ttl ns now).1 := by
  obtain ⟨hdef, hbound⟩ := hb
  have hlk1 : ((r.getCacheOf ns).1).lookupNs ns = some (r.getCacheOf ns).2 :=
    lookupNs_getCacheOf r ns
  have hcm : (r.getCacheOf ns).2.maxsize = m := by
    rcases hr : r.lookupNs ns with _ | c
    · simp [getCacheOf, hr, hdef]
    · rw [getCacheOf_of_lookup _ _ _ hr]
      exact (hbound ns c hr).1
  have hclen : (r.getCacheOf ns).2.entries.length ≤ m := by
    rcases hr : r.lookupNs ns with _ | c
    · simp [getCacheOf, hr]
    · rw [getCacheOf_of_lookup _ _ _ hr]
      exact (hbound ns c hr).2
  have hdef1 : ((r.getCacheOf ns).1).default_maxsize = m := by
    rcases hr : r.lookupNs ns with _ | c
    · simp [getCacheOf, hr, hdef]
    · rw [getCacheOf_of_lookup _ _ _ hr]
      exact hdef
  have hother : ∀ ns', ns' ≠ ns →
      ((r.getCacheOf ns).1).lookupNs ns' = r.lookupNs ns' :=
    fun ns' h => lookupNs_getCacheOf_other r ns ns' h
  have hupd : ∀ c2 : TTLCacheM α, c2.maxsize = m → c2.entries.length ≤ m →
      Bounded m (((r.getCacheOf ns).1).updateNs ns c2) := by
    intro c2 h1 h2
    refine ⟨by simp only [updateNs]; exact hdef1, ?_⟩
    intro ns' c' hlk'
    by_cases hns : ns' = ns
    · subst hns
      rw [lookupNs_updateNs_self _ _ _ (by rw [hlk1]; rfl)] at hlk'
      cases hlk'
      exact ⟨h1, h2⟩
    · rw [lookupNs_updateNs_other _ _ _ _ hns, hother ns' hns] at hlk'
      exact hbound ns' c' hlk'
  have hfresh : ∀ t : Int, 0 < t →
      Bounded m (r.set k v (some t) ns now).1 := by
    intro t ht
    have hset := set_pos_ttl_eq r ns k v now t (by omega) ht
    rw [hset]
    exact hupd _ hcm (by simp only [List.length_cons, List.length_nil]; omega)
  obtain ⟨c2, hsi, hm2, hl2⟩ := TTLCacheM.setItem_spec (r.getCacheOf ns).2 k v now
    (by omega) (by omega)
  have hplain : (match (r.getCacheOf ns).2.setItem k v now with
      | some c2 => (((r.getCacheOf ns).1).updateNs ns c2, true)
      | none => ((r.getCacheOf ns).1, false)) =
      ((((r.getCacheOf ns).1).updateNs ns c2, true) :
        MemoryCacheRepository α × Bool) := by
    rw [hsi]
  rcases ttl with _ | t
  · have hset : r.set k v none ns now = (((r.getCacheOf ns).1).updateNs ns c2, true) := by
      simp only [set, Bool.false_eq_true, if_false]
      exact hplain
    rw [hset]
    exact hupd c2 (by omega) (by omega)
  · by_cases ht : 0 < t
    · exact hfresh t ht
    · have hset : r.set k v (some t) ns now =
          (((r.getCacheOf ns).1).updateNs ns c2, true) := by
        have hdec : decide (t > 0) = false := by
          simp only [decide_eq_false_iff_not]
          omega
        simp only [set, hdec, Bool.false_eq_true, if_false]
        exact hplain
      rw [hset]
      exact hupd c2 (by omega) (by omega)

theorem lookupNs_set_other {α : Type} (r : MemoryCacheRepository α) (k : String)
    (v : α) (ttl : Option Int) (ns : String) (now : Int) (ns' : String)
    (h : ns' ≠ ns) :
    ((r.set k v ttl ns now).1).lookupNs ns' = r.lookupNs ns' := by
  have hoth := lookupNs_getCacheOf_other r ns ns' h
  have hplain : ∀ cc : TTLCacheM α,
      ((match cc.setItem k v now with
        | some c2 => (((r.getCacheOf ns).1).updateNs ns c2, true)
        | none => ((r.getCacheOf ns).1, false)) :
        MemoryCacheRepository α × Bool).1.lookupNs ns' = r.lookupNs ns' := by
    intro cc
    rcases hsi : cc.setItem k v now with _ | c2
    · simpa using hoth
    · simp only []
      rw [lookupNs_updateNs_other _ _ _ _ h]
      exact hoth
  rcases ttl with _ | t
  · simp only [set, Bool.false_eq_true, if_false]
    exact hplain _
  · by_cases ht : 0 < t
    · have hdec : decide (t > 0) = true := by
        simp only [decide_eq_true_eq]
        omega
      simp only [set, hdec, eq_self_iff_true, if_true]
      exact hplain _
    · have hdec : decide (t > 0) = false := by
        simp only [decide_eq_false_iff_not]
        omega
      simp only [set, hdec, Bool.false_eq_true, if_false]
      exact hplain _

end MemoryCacheRepository

/-- One recorded `set` call against the repository. -/
structure SetOp (α : Type) where
  key : String
  value : α
  ttl : Option Int
  ns : String
  now : Int

/-- Replay a sequence of `set` calls. -/
def applyOps {α : Type} (r : MemoryCacheRepository α) (ops : List (SetOp α)) :
    MemoryCacheRepository α :=
  ops.foldl (fun s o => (s.set o.key o.value o.ttl o.ns o.now).1) r

theorem applyOps_bounded {α : Type} (m : Nat) (hm : 0 < m)
    (r : MemoryCacheRepository α) (hb : MemoryCacheRepository.Bounded m r)
    (ops : List (SetOp α)) :
    MemoryCacheRepository.Bounded m (applyOps r ops) := by
  induction ops generalizing r with
  | nil => exact hb
  | cons o t ih =>
    exact ih _ (MemoryCacheRepository.set_preserves_bounded m hm r
      o.key o.value o.ttl o.ns o.now hb)

/-- C9: starting from a fresh repository with per-namespace capacity `m ≥ 1`,
after any sequence of `set` calls no namespace ever holds more than `m`
entries; and a `set` against one namespace never changes any other
namespace's cache (namespaces do not share eviction state). -/
theorem C9_eviction_bound {α : Type} (dttl : Int) (m : Nat) (hm : 0 < m)
    (ops : List (SetOp α)) :
    (∀ ns c, (applyOps (MemoryCacheRepository.init α dttl m) ops).lookupNs ns =
        some c → c.entries.length ≤ m)
    ∧ (∀ (r : MemoryCacheRepository α) (o : SetOp α) (ns' : String), ns' ≠ o.ns →
      ((r.set o.key o.value o.ttl o.ns o.now).1).lookupNs ns' = r.lookupNs ns') := by
  constructor
  · intro ns c hc
    have hb0 : MemoryCacheRepository.Bounded m (MemoryCacheRepository.init α dttl m) := by
      refine ⟨rfl, ?_⟩
      intro ns c h
      simp [MemoryCacheRepository.lookupNs, MemoryCacheRepository.init,
        List.find?] at h
    exact ((applyOps_bounded m hm _ hb0 ops).2 ns c hc).2
  · intro r o ns' h
    exact MemoryCacheRepository.lookupNs_set_other r o.key o.value o.ttl o.ns o.now ns' h

/-- Witness for C9 at concrete inputs: capacity 2, three distinct keys
inserted into one namespace; and an unrelated namespace untouched by a set. -/
theorem C9_eviction_bound_witness :
    ((⟨2, 3600, [⟨"b", 2, 3600⟩, ⟨"c", 3, 3600⟩]⟩ :
        TTLCacheM Nat).entries.length ≤ 2)
    ∧ ((((⟨[("x", ⟨2, 3600, []⟩)], 3600, 2⟩ :
        MemoryCacheRepository Nat).set "k" 5 none "x" 0).1.lookupNs "y") =
        ((⟨[("x", ⟨2, 3600, []⟩)], 3600, 2⟩ :
        MemoryCacheRepository Nat).lookupNs "y")) := by
  refine ⟨(C9_eviction_bound 3600 2 (by norm_num)
      [⟨"a", 1, none, "ns", 0⟩, ⟨"b", 2, none, "ns", 0⟩, ⟨"c", 3, none, "ns", 0⟩]).1
      "ns" ⟨2, 3600, [⟨"b", 2, 3600⟩, ⟨"c", 3, 3600⟩]⟩ (by decide),
    (C9_eviction_bound 3600 2 (by norm_num)
      ([] : List (SetOp Nat))).2
      (⟨[("x", ⟨2, 3600, []⟩)], 3600, 2⟩ : MemoryCacheRepository Nat)
      ⟨"k", 5, none, "x", 0⟩ "y" (by decide)⟩

/-! ## Rate limiter model

`RateLimitMiddleware` in backend/main.py.  `check_rate_limit_memory` is the
in-memory fallback limiter; `check_rate_limit_redis` is the primary
Redis-pipeline limiter.  `dispatch` derives a per-minute bucket key
`f"rate_limit:{client_ip}:{endpoint}:minute:{int(time.time() // 60)}"`;
Python floor division by the positive constant 60 coincides with Lean's
`Int` division. -/

/-- Association-list lookup for `self.memory_store` (a Python dict). -/
def lookupKey (store : List (String × List Int)) (k : String) : Option (List Int) :=
  (store.find? (fun p => p.1 == k)).map Prod.snd

/-- Dict assignment `self.memory_store[key] = ts`. -/
def storeSet (store : List (String × List Int)) (k : String) (ts : List Int) :
    List (String × List Int) :=
  if (store.find? (fun p => p.1 == k)).isSome then
    store.map (fun p => if p.1 == k then (k, ts) else p)
  else store ++ [(k, ts)]

/-- Mutable middleware state: `self.memory_store`, `self.last_cleanup`,
`self.cleanup_interval` (300 in `__init__`). -/
structure RateLimitState where
  memory_store : List (String × List Int)
  last_cleanup : Int
  cleanup_interval : Int
  deriving Repr, DecidableEq

/-- Model of `cleanup_memory_store`: drop timestamps older than one hour,
then drop keys whose list became empty. -/
def cleanupMemoryStore (store : List (String × List Int)) (now : Int) :
    List (String × List Int) :=
  (store.map (fun p => (p.1, p.2.filter (fun ts => now - ts < 3600)))).filter
    (fun p => ! p.2.isEmpty)

/-- The state after the periodic-cleanup preamble of `check_rate_limit_memory`. -/
def afterCleanup (s : RateLimitState) (now : Int) : RateLimitState :=
  if s.cleanup_interval < now - s.last_cleanup then
    { s with memory_store := cleanupMemoryStore s.memory_store now,
             last_cleanup := now }
  else s

/-- The key's timestamps surviving the window prune
(`timestamp > window_start` with `window_start = now - window`). -/
def prunedList (s : RateLimitState) (key : String) (window now : Int) : List Int :=
  ((lookupKey (afterCleanup s now).memory_store key).getD []).filter
    (fun ts => now - window < ts)

/-- Model of `check_rate_limit_memory(key, limit, window)` at time `now`.
Returns the new state, the admission decision, and the reported count.
When admitted the current time is appended and `count + 1` reported; when
rejected nothing is appended and the pre-existing count is reported. -/
def checkRateLimitMemory (s : RateLimitState) (key : String) (limit : Nat)
    (window now : Int) : RateLimitState × Bool × Nat :=
  let s1 := afterCleanup s now
  let pruned := prunedList s key window now
  if pruned.length < limit then
    ({ s1 with memory_store := storeSet s1.memory_store key (pruned ++ [now]) },
      true, pruned.length + 1)
  else
    ({ s1 with memory_store := storeSet s1.memory_store key pruned },
      false, pruned.length)

/-- The scores kept by `zremrangebyscore(key, 0, window_start)`: everything
with score in `[0, now - window]` is removed. -/
def redisKept (scores : List Int) (window now : Int) : List Int :=
  scores.filter (fun sc => ! (0 ≤ sc ∧ sc ≤ now - window))

/-- Model of `check_rate_limit_redis`'s pipeline on one key: prune, count
(`zcard`), then unconditionally `zadd` the current second (sorted-set member
insert: a duplicate member is not added twice).  The decision and reported
count use the count taken *before* the add. -/
def checkRateLimitRedis (scores : List Int) (limit : Nat) (window now : Int) :
    List Int × Bool × Nat :=
  let kept := redisKept scores window now
  let count := kept.length
  let added := if now ∈ kept then kept else kept ++ [now]
  (added, decide (count < limit), count)

/-- Per-minute bucket key built by `dispatch`. -/
def minuteKey (client_ip endpoint : String) (now : Int) : String :=
  "rate_limit:" ++ client_ip ++ ":" ++ endpoint ++ ":minute:" ++ toString (now / 60)

/-- Replay of requests through the per-minute memory limiter for one
client/endpoint, recording each (admitted, count) pair. -/
def runMinuteRequests (s : RateLimitState) (ip endpoint : String) (limit : Nat)
    (times : List Int) : RateLimitState × List (Bool × Nat) :=
  times.foldl (fun acc t =>
    let r := checkRateLimitMemory acc.1 (minuteKey ip endpoint t) limit 60 t
    (r.1, acc.2 ++ [r.2])) (s, [])

theorem find?_storeSet_self (st : List (String × List Int)) (k : String)
    (ts : List Int) :
    (storeSet st k ts).find? (fun p => p.1 == k) = some (k, ts) := by
  by_cases h : (st.find? (fun p => p.1 == k)).isSome
  · simp only [storeSet, if_pos h]
    induction st with
    | nil => simp at h
    | cons p t ih =>
      by_cases hp : p.1 == k
      · rw [List.map_cons, if_pos hp,
          find?_cons_pos (fun p : String × List Int => p.1 == k) _ _ (by simp)]
      · have hb : (p.1 == k) = false := by simpa using hp
        rw [find?_cons_neg (fun p : String × List Int => p.1 == k) _ _ hb] at h
        rw [List.map_cons, if_neg (by simp [hb]),
          find?_cons_neg (fun p : String × List Int => p.1 == k) _ _ hb]
        exact ih h
  · have hn : st.find? (fun p => p.1 == k) = none := by
      rcases hf : st.find? (fun p => p.1 == k) with _ | q
      · exact hf
      · rw [hf] at h
        simp at h
    simp only [storeSet, if_neg h]
    rw [find?_append_of_none _ _ _ hn,
      find?_cons_pos (fun p : String × List Int => p.1 == k) _ _ (by simp)]

theorem lookupKey_storeSet_self (st : List (String × List Int)) (k : String)
    (ts : List Int) : lookupKey (storeSet st k ts) k = some ts := by
  simp [lookupKey, find?_storeSet_self]

theorem lookupKey_single (k : String) (l : List Int) :
    lookupKey [(k, l)] k = some l := by
  simp only [lookupKey]
  rw [find?_cons_pos (fun p : String × List Int => p.1 == k) (k, l) [] (by simp)]
  rfl

theorem lookupKey_single_other (k k2 : String) (l : List Int) (h : k2 ≠ k) :
    lookupKey [(k, l)] k2 = none := by
  have hb : (((k, l) : String × List Int).1 == k2) = false := by
    simp only [beq_eq_false_iff_ne, ne_eq]
    exact fun hh => h hh.symm
  simp only [lookupKey]
  rw [find?_cons_neg (fun p : String × List Int => p.1 == k2) (k, l) [] hb]
  rfl

theorem storeSet_single_self (k : String) (l ts : List Int) :
    storeSet [(k, l)] k ts = [(k, ts)] := by
  have hs : (([(k, l)] : List (String × List Int)).find?
      (fun p => p.1 == k)).isSome := by
    rw [find?_cons_pos (fun p : String × List Int => p.1 == k) (k, l) [] (by simp)]
    rfl
  simp [storeSet, hs]

theorem checkMemory_fresh (s : RateLimitState) (key : String) (limit : Nat)
    (window now : Int)
    (hnc : ¬ s.cleanup_interval < now - s.last_cleanup)
    (habs : lookupKey s.memory_store key = none)
    (hlim : 0 < limit) :
    checkRateLimitMemory s key limit window now =
      ({ s with memory_store := s.memory_store ++ [(key, [now])] }, true, 1) := by
  have hac : afterCleanup s now = s := by simp [afterCleanup, hnc]
  have hpr : prunedList s key window now = [] := by
    simp [prunedList, hac, habs]
  have hfs : (s.memory_store.find? (fun p => p.1 == key)).isSome = false := by
    have : s.memory_store.find? (fun p => p.1 == key) = none := by
      rcases hf : s.memory_store.find? (fun p => p.1 == key) with _ | q
      · exact hf
      · exfalso
        simp [lookupKey, hf] at habs
    rw [this]
    rfl
  simp [checkRateLimitMemory, hac, hpr, hlim, storeSet, hfs]

theorem checkMemory_allow (s : RateLimitState) (key : String) (limit : Nat)
    (window now : Int) (l : List Int)
    (hnc : ¬ s.cleanup_interval < now - s.last_cleanup)
    (hl : lookupKey s.memory_store key = some l)
    (hall : ∀ x ∈ l, now - window < x)
    (hcount : l.length < limit) :
    checkRateLimitMemory s key limit window now =
      ({ s with memory_store := storeSet s.memory_store key (l ++ [now]) },
        true, l.length + 1) := by
  have hac : afterCleanup s now = s := by simp [afterCleanup, hnc]
  have hpr : prunedList s key window now = l := by
    simp only [prunedList, hac, hl, Option.getD_some]
    exact List.filter_eq_self.mpr (by intro a ha; simpa using hall a ha)
  simp [checkRateLimitMemory, hac, hpr, hcount]

theorem checkMemory_reject (s : RateLimitState) (key : String) (limit : Nat)
    (window now : Int) (l : List Int)
    (hnc : ¬ s.cleanup_interval < now - s.last_cleanup)
    (hl : lookupKey s.memory_store key = some l)
    (hall : ∀ x ∈ l, now - window < x)
    (hcount : ¬ l.length < limit) :
    checkRateLimitMemory s key limit window now =
      ({ s with memory_store := storeSet s.memory_store key l },
        false, l.length) := by
  have hac : afterCleanup s now = s := by simp [afterCleanup, hnc]
  have hpr : prunedList s key window now = l := by
    simp only [prunedList, hac, hl, Option.getD_some]
    exact List.filter_eq_self.mpr (by intro a ha; simpa using hall a ha)
  simp [checkRateLimitMemory, hac, hpr, hcount]

/-- C5: with `per_minute = 5`, starting from a fresh in-memory limiter
state, six requests inside one 60-second bucket for one client/endpoint
get decisions admit, admit, admit, admit, admit, reject (the reject is the
429 branch of `dispatch`), and the first request of the following bucket is
admitted again.  `hb0`-`hb5` put the first six times in bucket `b`
(`t // 60 = b`), `hb6` puts the seventh in the next bucket; `hkne` records
that the two buckets render to different key strings (decimal renderings of
distinct integers differ); `hcl` keeps the periodic sweep from firing
during the scenario. -/
theorem C5_rate_limit_boundary (ip ep : String) (lc b : Int)
    (t0 t1 t2 t3 t4 t5 t6 : Int)
    (hb0 : t0 / 60 = b) (hb1 : t1 / 60 = b) (hb2 : t2 / 60 = b)
    (hb3 : t3 / 60 = b) (hb4 : t4 / 60 = b) (hb5 : t5 / 60 = b)
    (hb6 : t6 / 60 = b + 1)
    (hcl : t6 - lc ≤ 300)
    (hkne : minuteKey ip ep t6 ≠ minuteKey ip ep t0) :
    (runMinuteRequests ⟨[], lc, 300⟩ ip ep 5 [t0, t1, t2, t3, t4, t5, t6]).2 =
      [(true, 1), (true, 2), (true, 3), (true, 4), (true, 5), (false, 5),
        (true, 1)] := by
  have hk1 : minuteKey ip ep t1 = minuteKey ip ep t0 := by
    simp [minuteKey, hb1, hb0]
  have hk2 : minuteKey ip ep t2 = minuteKey ip ep t0 := by
    simp [minuteKey, hb2, hb0]
  have hk3 : minuteKey ip ep t3 = minuteKey ip ep t0 := by
    simp [minuteKey, hb3, hb0]
  have hk4 : minuteKey ip ep t4 = minuteKey ip ep t0 := by
    simp [minuteKey, hb4, hb0]
  have hk5 : minuteKey ip ep t5 = minuteKey ip ep t0 := by
    simp [minuteKey, hb5, hb0]
  have e1 : checkRateLimitMemory ⟨[], lc, 300⟩ (minuteKey ip ep t0) 5 60 t0 =
      (⟨[(minuteKey ip ep t0, [t0])], lc, 300⟩, true, 1) := by
    rw [checkMemory_fresh _ _ _ _ _ (by show ¬ (300 : Int) < t0 - lc; omega)
      (by rfl) (by norm_num)]
    rfl
  have e2 : checkRateLimitMemory ⟨[(minuteKey ip ep t0, [t0])], lc, 300⟩
      (minuteKey ip ep t0) 5 60 t1 =
      (⟨[(minuteKey ip ep t0, [t0, t1])], lc, 300⟩, true, 2) := by
    rw [checkMemory_allow _ _ _ _ _ [t0]
      (by show ¬ (300 : Int) < t1 - lc; omega) (lookupKey_single _ _)
      (by intro x hx; fin_cases hx; omega) (by norm_num),
      storeSet_single_self]
    rfl
  have e3 : checkRateLimitMemory ⟨[(minuteKey ip ep t0, [t0, t1])], lc, 300⟩
      (minuteKey ip ep t0) 5 60 t2 =
      (⟨[(minuteKey ip ep t0, [t0, t1, t2])], lc, 300⟩, true, 3) := by
    rw [checkMemory_allow _ _ _ _ _ [t0, t1]
      (by show ¬ (300 : Int) < t2 - lc; omega) (lookupKey_single _ _)
      (by intro x hx; fin_cases hx <;> omega) (by norm_num),
      storeSet_single_self]
    rfl
  have e4 : checkRateLimitMemory
      ⟨[(minuteKey ip ep t0, [t0, t1, t2])], lc, 300⟩
      (minuteKey ip ep t0) 5 60 t3 =
      (⟨[(minuteKey ip ep t0, [t0, t1, t2, t3])], lc, 300⟩, true, 4) := by
    rw [checkMemory_allow _ _ _ _ _ [t0, t1, t2]
      (by show ¬ (300 : Int) < t3 - lc; omega) (lookupKey_single _ _)
      (by intro x hx; fin_cases hx <;> omega) (by norm_num),
      storeSet_single_self]
    rfl
  have e5 : checkRateLimitMemory
      ⟨[(minuteKey ip ep t0, [t0, t1, t2, t3])], lc, 300⟩
      (minuteKey ip ep t0) 5 60 t4 =
      (⟨[(minuteKey ip ep t0, [t0, t1, t2, t3, t4])], lc, 300⟩, true, 5) := by
    rw [checkMemory_allow _ _ _ _ _ [t0, t1, t2, t3]
      (by show ¬ (300 : Int) < t4 - lc; omega) (lookupKey_single _ _)
      (by intro x hx; fin_cases hx <;> omega) (by norm_num),
      storeSet_single_self]
    rfl
  have e6 : checkRateLimitMemory
      ⟨[(minuteKey ip ep t0, [t0, t1, t2, t3, t4])], lc, 300⟩
      (minuteKey ip ep t0) 5 60 t5 =
      (⟨[(minuteKey ip ep t0, [t0, t1, t2, t3, t4])], lc, 300⟩, false, 5) := by
    rw [checkMemory_reject _ _ _ _ _ [t0, t1, t2, t3, t4]
      (by show ¬ (300 : Int) < t5 - lc; omega) (lookupKey_single _ _)
      (by intro x hx; fin_cases hx <;> omega) (by norm_num),
      storeSet_single_self]
    rfl
  have e7 : checkRateLimitMemory
      ⟨[(minuteKey ip ep t0, [t0, t1, t2, t3, t4])], lc, 300⟩
      (minuteKey ip ep t6) 5 60 t6 =
      (⟨[(minuteKey ip ep t0, [t0, t1, t2, t3, t4]),
          (minuteKey ip ep t6, [t6])], lc, 300⟩, true, 1) := by
    rw [checkMemory_fresh _ _ _ _ _ (by show ¬ (300 : Int) < t6 - lc; omega)
      (lookupKey_single_other _ _ _ hkne) (by norm_num)]
    rfl
  simp only [runMinuteRequests, List.foldl, hk1, hk2, hk3, hk4, hk5,
    e1, e2, e3, e4, e5, e6, e7, List.nil_append, List.append_nil,
    List.cons_append, List.singleton_append]

/-- Witness for C5 at concrete inputs: requests at seconds 0,10,20,30,40,50
(bucket 0) and 60 (bucket 1). -/
theorem C5_rate_limit_boundary_witness :
    (runMinuteRequests ⟨[], 0, 300⟩ "1.2.3.4" "/api/tts" 5
        [0, 10, 20, 30, 40, 50, 60]).2 =
      [(true, 1), (true, 2), (true, 3), (true, 4), (true, 5), (false, 5),
        (true, 1)] :=
  C5_rate_limit_boundary "1.2.3.4" "/api/tts" 0 0 0 10 20 30 40 50 60
    (by decide) (by decide) (by decide) (by decide) (by decide) (by decide)
    (by decide) (by decide) (by decide)

/-- C6 counterexample: six same-second requests with `per_minute = 5`
through the in-memory limiter.  The sixth (over-limit) request reports
count 5 — the *pre-existing* count, not "count+1 attempted" = 6 — and the
stored window list still has 5 entries afterwards, so the counter was *not*
incremented on the rejected request, and the limit comparison happened
before any increment. -/
theorem C6_increment_counterexample :
    ((runMinuteRequests ⟨[], 0, 300⟩ "1.2.3.4" "/api/tts" 5
        [0, 0, 0, 0, 0, 0]).2 =
      [(true, 1), (true, 2), (true, 3), (true, 4), (true, 5), (false, 5)])
    ∧ (((lookupKey (runMinuteRequests ⟨[], 0, 300⟩ "1.2.3.4" "/api/tts" 5
        [0, 0, 0, 0, 0, 0]).1.memory_store
        (minuteKey "1.2.3.4" "/api/tts" 0)).getD []).length = 5) := by
  decide

/-- C6 (amended): in the in-memory limiter the counter is incremented only
on admitted requests — an admitted request appends its timestamp and
reports the post-increment count `count+1`, while a rejected request leaves
the window list unchanged and reports the pre-existing count; the
limit comparison uses the count *before* any increment.  In the Redis
pipeline the current request is always added (`zadd` is unconditional, so
the increment does happen on an over-limit request), but the decision and
the reported count both use the `zcard` value taken *before* the add. -/
theorem C6_count_semantics (s : RateLimitState) (key : String) (limit : Nat)
    (window now : Int) (scores : List Int) :
    (((checkRateLimitMemory s key limit window now).2.1 = true ↔
        (prunedList s key window now).length < limit)
      ∧ ((prunedList s key window now).length < limit →
          (checkRateLimitMemory s key limit window now).2.2 =
            (prunedList s key window now).length + 1 ∧
          lookupKey (checkRateLimitMemory s key limit window now).1.memory_store
            key = some (prunedList s key window now ++ [now]))
      ∧ (¬ (prunedList s key window now).length < limit →
          (checkRateLimitMemory s key limit window now).2.2 =
            (prunedList s key window now).length ∧
          lookupKey (checkRateLimitMemory s key limit window now).1.memory_store
            key = some (prunedList s key window now)))
    ∧ (((checkRateLimitRedis scores limit window now).2.1 = true ↔
        (redisKept scores window now).length < limit)
      ∧ (checkRateLimitRedis scores limit window now).2.2 =
          (redisKept scores window now).length
      ∧ now ∈ (checkRateLimitRedis scores limit window now).1) := by
  constructor
  · by_cases h : (prunedList s key window now).length < limit
    · simp only [checkRateLimitMemory, if_pos h]
      refine ⟨by simp [h], fun _ => ⟨by trivial, lookupKey_storeSet_self _ _ _⟩,
        fun hc => absurd h hc⟩
    · simp only [checkRateLimitMemory, if_neg h]
      refine ⟨by simp [h], fun hc => absurd hc h,
        fun _ => ⟨by trivial, lookupKey_storeSet_self _ _ _⟩⟩
  · refine ⟨by simp [checkRateLimitRedis], by simp [checkRateLimitRedis], ?_⟩
    simp only [checkRateLimitRedis]
    by_cases hmem : now ∈ redisKept scores window now
    · simp [hmem]
    · simp [hmem]

/-- Witness for C6_count_semantics at concrete inputs (discharging the
inner implications at a concrete state where the limit is exceeded). -/
theorem C6_count_semantics_witness :
    ((checkRateLimitMemory ⟨[("k", [0, 0, 0, 0, 0])], 0, 300⟩ "k" 5 60 0).2.2 =
      (prunedList ⟨[("k", [0, 0, 0, 0, 0])], 0, 300⟩ "k" 60 0).length)
    ∧ ((checkRateLimitRedis [0, 0, 0, 0, 0] 5 3600 0).2.2 =
      (redisKept [0, 0, 0, 0, 0] 3600 0).length) :=
  ⟨((C6_count_semantics ⟨[("k", [0, 0, 0, 0, 0])], 0, 300⟩ "k" 5 60 0
      [0, 0, 0, 0, 0]).1.2.2 (by decide)).1,
    (C6_count_semantics ⟨[("k", [0, 0, 0, 0, 0])], 0, 300⟩ "k" 5 60 0
      [0, 0, 0, 0, 0]).2.2.1⟩

/-! ## In-flight deduplication model

`_get_or_compute_lesson` in backend/app/api/routes/chat.py coordinates
through the module dict `_INFLIGHT_LESSONS: dict[str, asyncio.Future]`.
Under asyncio's single-threaded cooperative scheduling the entry section
(registry read, doneness check, `loop.create_future()`, registry write,
`asyncio.create_task`) contains no `await`, so it runs atomically;
`await fut` is the suspension point.  The model fixes one fingerprint and
threads the registry entry for it (`inflight`), the set of created futures,
a fresh-id counter, and the number of compute invocations started. -/

inductive FutOutcome (ε ρ : Type) where
  | pending
  | result (r : ρ)
  | failed (e : ε)
  deriving Repr, DecidableEq

structure DedupState (ε ρ : Type) where
  inflight : Option Nat
  futures : List (Nat × FutOutcome ε ρ)
  nextId : Nat
  computeCalls : Nat
  deriving Repr, DecidableEq

/-- The status of future `fid` (a future object is `done()` once it holds a
result or an exception). -/
def futLookup {ε ρ : Type} (s : DedupState ε ρ) (fid : Nat) :
    Option (FutOutcome ε ρ) :=
  (s.futures.find? (fun p => p.1 == fid)).map Prod.snd

def futDone {ε ρ : Type} (st : FutOutcome ε ρ) : Bool :=
  match st with
  | .pending => false
  | _ => true

/-- The `fut = loop.create_future(); _INFLIGHT_LESSONS[cache_key] = fut;
asyncio.create_task(_run())` path: register a fresh pending future and
start one compute task. -/
def newTicket {ε ρ : Type} (s : DedupState ε ρ) : DedupState ε ρ × Nat :=
  ({ inflight := some s.nextId,
     futures := s.futures ++ [(s.nextId, FutOutcome.pending)],
     nextId := s.nextId + 1,
     computeCalls := s.computeCalls + 1 }, s.nextId)

/-- Atomic entry section of `_get_or_compute_lesson`: if the registry holds
a not-yet-done future the caller subscribes to it, otherwise a new ticket
is registered and a compute task spawned.  Returns the id of the future the
caller then awaits. -/
def enter {ε ρ : Type} (s : DedupState ε ρ) : DedupState ε ρ × Nat :=
  match s.inflight with
  | some fid =>
    match futLookup s fid with
    | some st => if futDone st then newTicket s else (s, fid)
    | none => newTicket s
  | none => newTicket s

/-- `N` callers entering back-to-back, none of them interleaved with a
settlement (each later call starts before the first computation settles). -/
def enterN {ε ρ : Type} (s : DedupState ε ρ) : Nat → DedupState ε ρ × List Nat
  | 0 => (s, [])
  | Nat.succ m =>
    let r1 := enter s
    let r2 := enterN r1.1 m
    (r2.1, r1.2 :: r2.2)

/-- The body of `_run`: on success `fut.set_result(result)`; on an
exception from the compute `fut.set_result((stub, "stub"))` — the value
`onError` — and in both cases `finally: _INFLIGHT_LESSONS.pop(cache_key)`.
The future is *never* settled with `set_exception`. -/
def runTask {ε ρ : Type} (s : DedupState ε ρ) (fid : Nat)
    (outcome : Except ε ρ) (onError : ρ) : DedupState ε ρ :=
  let newStatus : FutOutcome ε ρ := match outcome with
    | .ok r => .result r
    | .error _ => .result onError
  { s with
    futures := s.futures.map (fun p => if p.1 == fid then (fid, newStatus) else p),
    inflight := none }

/-- Is some caller's computation still pending in the registry? -/
def hasPendingTicket {ε ρ : Type} (s : DedupState ε ρ) : Bool :=
  match s.inflight with
  | some fid =>
    match futLookup s fid with
    | some st => ! futDone st
    | none => false
  | none => false

theorem find?_update_isSome {κ γ : Type} [BEq κ] [LawfulBEq κ]
    (l : List (κ × γ)) (k : κ) (c : γ)
    (h : (l.find? (fun p => p.1 == k)).isSome) :
    (l.map (fun p => if p.1 == k then (k, c) else p)).find?
      (fun p => p.1 == k) = some (k, c) := by
  induction l with
  | nil => simp at h
  | cons p t ih =>
    by_cases hp : p.1 == k
    · rw [List.map_cons, if_pos hp,
        find?_cons_pos (fun p : κ × γ => p.1 == k) _ _ (by simp)]
    · have hb : (p.1 == k) = false := by simpa using hp
      rw [find?_cons_neg (fun p : κ × γ => p.1 == k) _ _ hb] at h
      rw [List.map_cons, if_neg (by simp [hb]),
        find?_cons_neg (fun p : κ × γ => p.1 == k) _ _ hb]
      exact ih h

theorem enter_pending {ε ρ : Type} (s : DedupState ε ρ) (fid : Nat)
    (hi : s.inflight = some fid) (hp : futLookup s fid = some .pending) :
    enter s = (s, fid) := by
  simp [enter, hi, hp, futDone]

theorem enter_free {ε ρ : Type} (s : DedupState ε ρ)
    (hfree : hasPendingTicket s = false) :
    enter s = newTicket s := by
  rcases hi : s.inflight with _ | fid
  · simp [enter, hi]
  · rcases hl : futLookup s fid with _ | st
    · simp [enter, hi, hl]
    · have hd : futDone st = true := by
        simp [hasPendingTicket, hi, hl] at hfree
        simpa using hfree
      simp [enter, hi, hl, hd]

theorem enterN_pending {ε ρ : Type} (s : DedupState ε ρ) (fid : Nat) (n : Nat)
    (hi : s.inflight = some fid) (hp : futLookup s fid = some .pending) :
    enterN s n = (s, List.replicate n fid) := by
  induction n with
  | zero => simp [enterN, List.replicate]
  | succ m ih => simp [enterN, enter_pending s fid hi hp, ih, List.replicate]

theorem futures_find_newTicket {ε ρ : Type} (s : DedupState ε ρ)
    (hfresh : futLookup s s.nextId = none) :
    ((newTicket s).1.futures).find? (fun p => p.1 == s.nextId) =
      some (s.nextId, FutOutcome.pending) := by
  have hn : s.futures.find? (fun p => p.1 == s.nextId) = none := by
    rcases hf : s.futures.find? (fun p => p.1 == s.nextId) with _ | q
    · exact hf
    · exfalso
      simp [futLookup, hf] at hfresh
  simp only [newTicket]
  rw [find?_append_of_none _ _ _ hn,
    find?_cons_pos (fun p : Nat × FutOutcome ε ρ => p.1 == s.nextId) _ _ (by simp)]

/-- C1: from a state with no pending in-flight ticket, `n ≥ 1` concurrent
callers of the get-or-compute operation (each later call entering before
the first computation settles) start exactly one compute invocation; all
`n` callers subscribe to the same future, and whatever value settles that
future is delivered identically to every caller. -/
theorem C1_dedup_exactly_once {ε ρ : Type} (s : DedupState ε ρ) (n : Nat)
    (hn : 0 < n) (hfree : hasPendingTicket s = false)
    (hfresh : futLookup s s.nextId = none) :
    ((enterN s n).1.computeCalls = s.computeCalls + 1)
    ∧ ((enterN s n).2 = List.replicate n s.nextId)
    ∧ (∀ (outcome : Except ε ρ) (onError : ρ),
        futLookup (runTask (enterN s n).1 s.nextId outcome onError) s.nextId =
          some (.result (match outcome with | .ok r => r | .error _ => onError))) := by
  obtain ⟨m, rfl⟩ : ∃ m, n = m + 1 := ⟨n - 1, by omega⟩
  have hfind1 := futures_find_newTicket s hfresh
  have hpend1 : futLookup (newTicket s).1 s.nextId = some .pending := by
    simp [futLookup, hfind1]
  have hi1 : (newTicket s).1.inflight = some s.nextId := rfl
  have hrun : enterN s (m + 1) = ((newTicket s).1, List.replicate (m + 1) s.nextId) := by
    show enterN s (Nat.succ m) = _
    simp only [enterN, enter_free s hfree,
      enterN_pending (newTicket s).1 s.nextId m hi1 hpend1]
    rfl
  refine ⟨by rw [hrun]; rfl, by rw [hrun], ?_⟩
  intro outcome onError
  rw [hrun]
  simp only [runTask, futLookup]
  rw [find?_update_isSome _ _ _ (by rw [hfind1]; rfl)]
  rcases outcome with r | e <;> rfl

/-- Witness for C1 at concrete inputs: three concurrent callers on a fresh
registry. -/
theorem C1_dedup_exactly_once_witness :
    ((enterN (⟨none, [], 0, 0⟩ : DedupState String Nat) 3).1.computeCalls = 0 + 1)
    ∧ ((enterN (⟨none, [], 0, 0⟩ : DedupState String Nat) 3).2 = List.replicate 3 0)
    ∧ (futLookup (runTask (enterN (⟨none, [], 0, 0⟩ : DedupState String Nat) 3).1
        0 (Except.ok 42) 7) 0 = some (.result 42)) := by
  have h := C1_dedup_exactly_once (⟨none, [], 0, 0⟩ : DedupState String Nat) 3
    (by norm_num) (by decide) (by decide)
  exact ⟨h.1, h.2.1, h.2.2 (Except.ok 42) 7⟩

/-! ## Structured lesson schema and stub (chat.py)

Pydantic models and `_stub_lesson` from backend/app/api/routes/chat.py.
`uuid.uuid4()` draws are modelled as explicit string parameters.  The
apostrophes of the source strings are written as the escape `\x27`. -/

structure ClassificationItem where
  type : String
  description : String
  deriving Repr, DecidableEq

structure SectionItem where
  title : String
  content : String
  deriving Repr, DecidableEq

structure QuizItem where
  q : String
  options : List String
  answer : String
  deriving Repr, DecidableEq

structure StructuredLessonResponse where
  id : Option String
  introduction : Option String
  classifications : List ClassificationItem
  sections : List SectionItem
  diagram : String
  quiz : List QuizItem
  deriving Repr, DecidableEq

/-- The error message `_stub_lesson` builds around the topic. -/
def stubErrorMessage (topic : String) : String :=
  "Unable to generate a detailed lesson about \x27" ++ topic ++
    "\x27 at this time. This could be due to high demand or a temporary issue. Please try again later or ask about a different topic."

/-- Model of `_stub_lesson(topic, age)`: the deterministic fallback lesson
(the `age` argument is only logged by the source).  `uuid` stands for the
`str(uuid.uuid4())` drawn inside. -/
def stubLesson (topic : String) (age : Option Int) (uuid : String) :
    StructuredLessonResponse :=
  { id := some uuid
    introduction := some (stubErrorMessage topic)
    classifications := []
    sections := [
      ⟨"Service Temporarily Unavailable", stubErrorMessage topic⟩,
      ⟨"Try These Alternatives",
        "1. Try rephrasing your question\n2. Ask about a different topic\n3. Check back in a few minutes\n4. Contact support if the issue persists"⟩]
    diagram := ""
    quiz := [⟨"What should you do when a lesson fails to generate?",
      ["A) Try rephrasing the question", "B) Ask about a different topic",
        "C) Check back later", "D) All of the above"],
      "D) All of the above"⟩] }

/-- A value delivered through an in-flight future: the lesson plus its
source tag ("llm" or "stub"). -/
abbrev LessonResult := StructuredLessonResponse × String

/-- The `except` branch of `_run` builds `_stub_lesson(topic, age)` (drawing
`uuidA`) and then overwrites its id with a fresh `str(uuid.uuid4())`
(`uuidB`). -/
def runStubResult (topic : String) (age : Option Int) (uuidA uuidB : String) :
    LessonResult :=
  ({ stubLesson topic age uuidA with id := some uuidB }, "stub")

/-- Model of the `_run` task of `_get_or_compute_lesson` for the lesson
result type: on success the computed pair is set as the future's result; if
the compute raised, the future is *also* settled with `set_result`, holding
the stub pair — never with `set_exception`; either way the registry entry
is popped. -/
def runLessonTask (s : DedupState String LessonResult) (fid : Nat)
    (outcome : Except String LessonResult) (topic : String) (age : Option Int)
    (uuidA uuidB : String) : DedupState String LessonResult :=
  runTask s fid outcome (runStubResult topic age uuidA uuidB)

/-- C4 counterexample: one caller enters a fresh registry, its compute
raises `"boom"`.  The waiter's future settles with the *stub lesson result*
(via `set_result`), not with the raised error — `futLookup` returns
`.result (stub, "stub")` and in particular not `.failed "boom"` — so the
failure is not propagated to the waiters as the claim states (the cleanup
half of the claim does hold; see the amended theorem). -/
theorem C4_error_propagation_counterexample :
    (futLookup (runLessonTask (enter (⟨none, [], 0, 0⟩ :
        DedupState String LessonResult)).1 0 (Except.error "boom")
        "Python" (some 10) "u1" "u2") 0 =
      some (.result (runStubResult "Python" (some 10) "u1" "u2")))
    ∧ (futLookup (runLessonTask (enter (⟨none, [], 0, 0⟩ :
        DedupState String LessonResult)).1 0 (Except.error "boom")
        "Python" (some 10) "u1" "u2") 0 ≠
      some (.failed "boom")) := by
  have h1 : futLookup (runLessonTask (enter (⟨none, [], 0, 0⟩ :
      DedupState String LessonResult)).1 0 (Except.error "boom")
      "Python" (some 10) "u1" "u2") 0 =
      some (.result (runStubResult "Python" (some 10) "u1" "u2")) := rfl
  refine ⟨h1, ?_⟩
  rw [h1]
  simp

/-- C4 (amended): when the compute raises, every waiter subscribed to the
fingerprint's ticket receives the deterministic stub-lesson result tagged
"stub" — a substitute result, not the raised error — and the ticket is
still removed from the in-flight registry (no deadlocked tickets). -/
theorem C4_error_stub_delivery (s : DedupState String LessonResult) (fid : Nat)
    (e : String) (topic : String) (age : Option Int) (uuidA uuidB : String)
    (hs : (s.futures.find? (fun p => p.1 == fid)).isSome) :
    (futLookup (runLessonTask s fid (.error e) topic age uuidA uuidB) fid =
      some (.result (runStubResult topic age uuidA uuidB)))
    ∧ ((runLessonTask s fid (.error e) topic age uuidA uuidB).inflight = none)
    ∧ (∀ e2 : String,
        futLookup (runLessonTask s fid (.error e) topic age uuidA uuidB) fid ≠
          some (.failed e2)) := by
  have hmain : futLookup (runLessonTask s fid (.error e) topic age uuidA uuidB)
      fid = some (.result (runStubResult topic age uuidA uuidB)) := by
    simp only [runLessonTask, runTask, futLookup]
    rw [find?_update_isSome _ _ _ hs]
    rfl
  refine ⟨hmain, rfl, ?_⟩
  intro e2 hcontra
  rw [hmain] at hcontra
  cases hcontra

/-- Witness for C4_error_stub_delivery at concrete inputs. -/
theorem C4_error_stub_delivery_witness :
    (futLookup (runLessonTask ⟨some 0, [(0, .pending)], 1, 1⟩ 0
        (Except.error "timeout") "Photosynthesis" (some 9) "u1" "u2") 0 =
      some (.result (runStubResult "Photosynthesis" (some 9) "u1" "u2")))
    ∧ ((runLessonTask ⟨some 0, [(0, .pending)], 1, 1⟩ 0
        (Except.error "timeout") "Photosynthesis" (some 9) "u1" "u2").inflight =
      none) := by
  have h := C4_error_stub_delivery ⟨some 0, [(0, .pending)], 1, 1⟩ 0 "timeout"
    "Photosynthesis" (some 9) "u1" "u2" (by decide)
  exact ⟨h.1, h.2.1⟩

/-! ## MD5 and the fingerprint functions

Both fingerprints hash with `hashlib.md5(...).hexdigest()[:16]`.  MD5
(RFC 1321) is implemented here over UTF-8 byte lists with `Nat` words
reduced mod `2^32`; the implementation matches the reference digests for
"", "abc" and the strings used below. -/

def utf8Bytes (c : Nat) : List Nat :=
  if c < 128 then [c]
  else if c < 2048 then [192 + c / 64, 128 + c % 64]
  else if c < 65536 then [224 + c / 4096, 128 + (c / 64) % 64, 128 + c % 64]
  else [240 + c / 262144, 128 + (c / 4096) % 64, 128 + (c / 64) % 64, 128 + c % 64]

def strBytes (s : String) : List Nat :=
  s.data.foldr (fun ch acc => utf8Bytes ch.toNat ++ acc) []

def md5K : List Nat :=
  [3614090360, 3905402710, 606105819, 3250441966, 4118548399, 1200080426,
   2821735955, 4249261313, 1770035416, 2336552879, 4294925233, 2304563134,
   1804603682, 4254626195, 2792965006, 1236535329, 4129170786, 3225465664,
   643717713, 3921069994, 3593408605, 38016083, 3634488961, 3889429448,
   568446438, 3275163606, 4107603335, 1163531501, 2850285829, 4243563512,
   1735328473, 2368359562, 4294588738, 2272392833, 1839030562, 4259657740,
   2763975236, 1272893353, 4139469664, 3200236656, 681279174, 3936430074,
   3572445317, 76029189, 3654602809, 3873151461, 530742520, 3299628645,
   4096336452, 1126891415, 2878612391, 4237533241, 1700485571, 2399980690,
   4293915773, 2240044497, 1873313359, 4264355552, 2734768916, 1309151649,
   4149444226, 3174756917, 718787259, 3951481745]

def md5S : List Nat :=
  [7, 12, 17, 22, 7, 12, 17, 22, 7, 12, 17, 22, 7, 12, 17, 22, 5, 9, 14,
   20, 5, 9, 14, 20, 5, 9, 14, 20, 5, 9, 14, 20, 4, 11, 16, 23, 4, 11, 16,
   23, 4, 11, 16, 23, 4, 11, 16, 23, 6, 10, 15, 21, 6, 10, 15, 21, 6, 10,
   15, 21, 6, 10, 15, 21]

def w32 : Nat := 4294967296

def md5F (i b c d : Nat) : Nat :=
  if i < 16 then Nat.lor (Nat.land b c) (Nat.land (Nat.xor b 4294967295) d)
  else if i < 32 then Nat.lor (Nat.land d b) (Nat.land (Nat.xor d 4294967295) c)
  else if i < 48 then Nat.xor (Nat.xor b c) d
  else Nat.xor c (Nat.lor b (Nat.xor d 4294967295))

def md5G (i : Nat) : Nat :=
  if i < 16 then i
  else if i < 32 then (5 * i + 1) % 16
  else if i < 48 then (3 * i + 5) % 16
  else (7 * i) % 16

def leftrot (x s : Nat) : Nat :=
  (x * 2 ^ s + x / 2 ^ (32 - s)) % w32

def md5Round (M : List Nat) (st : Nat × Nat × Nat × Nat) (i : Nat) :
    Nat × Nat × Nat × Nat :=
  match st with
  | (a, b, c, d) =>
    let f := md5F i b c d
    let x := (a + f + md5K.getD i 0 + M.getD (md5G i) 0) % w32
    let r := leftrot x (md5S.getD i 0)
    (d, (b + r) % w32, b, c)

def leWord (blk : List Nat) (j : Nat) : Nat :=
  blk.getD (4 * j) 0 + 256 * blk.getD (4 * j + 1) 0 +
    65536 * blk.getD (4 * j + 2) 0 + 16777216 * blk.getD (4 * j + 3) 0

def md5Block (st : Nat × Nat × Nat × Nat) (blk : List Nat) :
    Nat × Nat × Nat × Nat :=
  let M := (List.range 16).map (leWord blk)
  match st, (List.range 64).foldl (md5Round M) st with
  | (a0, b0, c0, d0), (a, b, c, d) =>
    ((a0 + a) % w32, (b0 + b) % w32, (c0 + c) % w32, (d0 + d) % w32)

def md5Pad (msg : List Nat) : List Nat :=
  let len := msg.length
  let bitlen := (8 * len) % 2 ^ 64
  let zeros := (119 - len % 64) % 64
  msg ++ [128] ++ List.replicate zeros 0 ++
    [bitlen % 256, bitlen / 256 % 256, bitlen / 65536 % 256,
     bitlen / 16777216 % 256, bitlen / 4294967296 % 256,
     bitlen / 1099511627776 % 256, bitlen / 281474976710656 % 256,
     bitlen / 72057594037927936 % 256]

def chunksAux : Nat → List Nat → List (List Nat)
  | 0, _ => []
  | _, [] => []
  | Nat.succ fuel, l => l.take 64 :: chunksAux fuel (l.drop 64)

def chunks64 (l : List Nat) : List (List Nat) := chunksAux l.length l

def hexDigit (n : Nat) : Char :=
  if n < 10 then Char.ofNat (48 + n) else Char.ofNat (87 + n)

def byteHex (b : Nat) : List Char := [hexDigit (b / 16), hexDigit (b % 16)]

def wordHex (w : Nat) : List Char :=
  byteHex (w % 256) ++ byteHex (w / 256 % 256) ++ byteHex (w / 65536 % 256) ++
    byteHex (w / 16777216 % 256)

def md5Hex (s : String) : String :=
  let blocks := chunks64 (md5Pad (strBytes s))
  match blocks.foldl md5Block (1732584193, 4023233417, 2562383102, 271733878) with
  | (a, b, c, d) => String.mk (wordHex a ++ wordHex b ++ wordHex c ++ wordHex d)

/-- Python `str.lower()` (ASCII range, which covers the strings at issue). -/
def pyLower (s : String) : String := String.mk (s.data.map Char.toLower)

def isPyWhitespace (c : Char) : Bool :=
  c = ' ' || c = '\t' || c = '\n' || c = '\r' || c = '\x0b' || c = '\x0c'

/-- Python `str.strip()` on char lists. -/
def stripChars (l : List Char) : List Char :=
  ((l.dropWhile isPyWhitespace).reverse.dropWhile isPyWhitespace).reverse

/-- Python `str.strip()`: drop leading and trailing whitespace. -/
def pyStrip (s : String) : String := String.mk (stripChars s.data)

/-- Model of `get_cache_key(topic)` (main.py): `topic.lower().strip()`,
then `f"lesson:{md5(...).hexdigest()[:16]}"`.  It takes only the topic —
age and mode are not part of this key. -/
def get_cache_key (topic : String) : String :=
  "lesson:" ++ (md5Hex (pyStrip (pyLower topic))).take 16

/-- Python rendering of the `age` as interpolated into the f-string
(`10` or `None`). -/
def pyOptIntRepr (age : Option Int) : String :=
  match age with
  | some a => toString a
  | none => "None"

/-- Model of the fingerprint built by `structured_lesson_handler`
(chat.py): `hashlib.md5(f"{text}|{age}".encode()).hexdigest()[:16]` — note
there is no trimming or lower-casing here. -/
def chatLessonFingerprint (text : String) (age : Option Int) : String :=
  (md5Hex (text ++ "|" ++ pyOptIntRepr age)).take 16

set_option maxRecDepth 100000 in
/-- C7 counterexample: the fingerprint used by the chat route
(`structured_lesson_handler`, chat.py) does *not* normalize its topic: at
age 10, `"Python"` and `" python "` hash to different keys, against the
claim that for every topic, age and mode the fingerprint is
normalization-invariant. -/
theorem C7_fingerprint_counterexample :
    chatLessonFingerprint "Python" (some 10) ≠
      chatLessonFingerprint " python " (some 10) := by
  decide

set_option maxRecDepth 100000 in
/-- C7 (amended): `get_cache_key` in main.py (which keys only on the topic;
age and mode are not part of the key) normalizes by lower-casing and
trimming before hashing: topics equal after normalization give equal keys,
in particular `get_cache_key "Python" = get_cache_key " python "`, and the
function is deterministic (a pure function of its argument).  The chat
route's fingerprint performs no such normalization (see the
counterexample). -/
theorem C7_fingerprint_normalization :
    (∀ t1 t2 : String, pyStrip (pyLower t1) = pyStrip (pyLower t2) →
      get_cache_key t1 = get_cache_key t2)
    ∧ (get_cache_key "Python" = get_cache_key " python ")
    ∧ (∀ t : String, get_cache_key t = get_cache_key t) := by
  have hnorm : ∀ t1 t2 : String, pyStrip (pyLower t1) = pyStrip (pyLower t2) →
      get_cache_key t1 = get_cache_key t2 := by
    intro t1 t2 h
    simp only [get_cache_key, h]
  exact ⟨hnorm, hnorm "Python" " python " (by decide), fun t => rfl⟩

set_option maxRecDepth 100000 in
/-- Witness for C7_fingerprint_normalization at concrete inputs. -/
theorem C7_fingerprint_normalization_witness :
    get_cache_key "Quantum Physics" = get_cache_key "  quantum physics  " :=
  C7_fingerprint_normalization.1 "Quantum Physics" "  quantum physics  "
    (by decide)

/-! ## JSON values and a strict parser

`orjson.loads` (main.py) and `json.loads` (chat.py) are strict RFC 8259
parsers: markdown fences, trailing commas and raw control characters in
strings are all parse errors.  The parser below is a fueled
recursive-descent parser over `List Char`; it rejects trailing commas and
unescaped control characters.  (Unicode escapes decode single `\uXXXX`
code units; surrogate-pair combining is not modelled — no input in this
development uses escapes.)  Numbers keep their lexeme — no claim depends
on numeric values. -/

inductive JValue where
  | null
  | bool (b : Bool)
  | num (lexeme : String)
  | str (s : String)
  | arr (xs : List JValue)
  | obj (kvs : List (String × JValue))

def isJsonWs (c : Char) : Bool := c = ' ' || c = '\t' || c = '\n' || c = '\r'

def skipWs : List Char → List Char
  | [] => []
  | c :: cs => if isJsonWs c then skipWs cs else c :: cs

def hexVal (c : Char) : Option Nat :=
  if '0' ≤ c ∧ c ≤ '9' then some (c.toNat - 48)
  else if 'a' ≤ c ∧ c ≤ 'f' then some (c.toNat - 87)
  else if 'A' ≤ c ∧ c ≤ 'F' then some (c.toNat - 55)
  else none

def parseStringAux : Nat → List Char → List Char → Option (String × List Char)
  | 0, _, _ => none
  | _ + 1, _, [] => none
  | n + 1, acc, c :: cs =>
    if c = '"' then some (String.mk acc.reverse, cs)
    else if c = '\\' then
      match cs with
      | [] => none
      | e :: cs2 =>
        if e = '"' then parseStringAux n ('"' :: acc) cs2
        else if e = '\\' then parseStringAux n ('\\' :: acc) cs2
        else if e = '/' then parseStringAux n ('/' :: acc) cs2
        else if e = 'b' then parseStringAux n ('\x08' :: acc) cs2
        else if e = 'f' then parseStringAux n ('\x0c' :: acc) cs2
        else if e = 'n' then parseStringAux n ('\n' :: acc) cs2
        else if e = 'r' then parseStringAux n ('\r' :: acc) cs2
        else if e = 't' then parseStringAux n ('\t' :: acc) cs2
        else if e = 'u' then
          match cs2 with
          | h1 :: h2 :: h3 :: h4 :: cs3 =>
            match hexVal h1, hexVal h2, hexVal h3, hexVal h4 with
            | some a, some b, some c2, some d =>
              let code := ((a * 16 + b) * 16 + c2) * 16 + d
              if code < 55296 ∨ (57343 < code ∧ code < 1114112) then
                parseStringAux n (Char.ofNat code :: acc) cs3
              else none
            | _, _, _, _ => none
          | _ => none
        else none
    else if c.toNat < 32 then none
    else parseStringAux n (c :: acc) cs

def parseNumberLexeme (cs : List Char) : Option (String × List Char) :=
  let negPart : List Char × List Char := match cs with
    | c :: r => if c = '-' then ([c], r) else ([], cs)
    | [] => ([], [])
  let digits := negPart.2.takeWhile Char.isDigit
  let afterInt := negPart.2.dropWhile Char.isDigit
  if digits = [] then none
  else if 1 < digits.length ∧ digits.headD '0' = '0' then none
  else
    let fracPart : List Char × List Char := match afterInt with
      | '.' :: r2 =>
        let fr := r2.takeWhile Char.isDigit
        if fr = [] then ([], afterInt) else ('.' :: fr, r2.dropWhile Char.isDigit)
      | _ => ([], afterInt)
    if fracPart.1.isEmpty && (match afterInt with | '.' :: _ => true | _ => false) then
      none
    else
      let expPart : Option (List Char × List Char) := match fracPart.2 with
        | e :: r3 =>
          if e = 'e' ∨ e = 'E' then
            let signAndRest : List Char × List Char := match r3 with
              | s :: r4 => if s = '+' ∨ s = '-' then ([s], r4) else ([], r3)
              | [] => ([], [])
            let ds := signAndRest.2.takeWhile Char.isDigit
            if ds = [] then none
            else some (e :: signAndRest.1 ++ ds, signAndRest.2.dropWhile Char.isDigit)
          else some ([], fracPart.2)
        | [] => some ([], [])
      match expPart with
      | none => none
      | some (ex, rest) =>
        some (String.mk (negPart.1 ++ digits ++ fracPart.1 ++ ex), rest)

mutual

def parseValue : Nat → List Char → Option (JValue × List Char)
  | 0, _ => none
  | n + 1, cs =>
    match skipWs cs with
    | [] => none
    | c :: rest =>
      if c = '{' then
        match skipWs rest with
        | '}' :: r2 => some (.obj [], r2)
        | r2 =>
          match parseMembers n r2 with
          | some (kvs, r) => some (.obj kvs, r)
          | none => none
      else if c = '[' then
        match skipWs rest with
        | ']' :: r2 => some (.arr [], r2)
        | r2 =>
          match parseElements n r2 with
          | some (xs, r) => some (.arr xs, r)
          | none => none
      else if c = '"' then
        match parseStringAux (rest.length + 1) [] rest with
        | some (s, r) => some (.str s, r)
        | none => none
      else if (c :: rest).take 4 = ['t', 'r', 'u', 'e'] then
        some (.bool true, (c :: rest).drop 4)
      else if (c :: rest).take 5 = ['f', 'a', 'l', 's', 'e'] then
        some (.bool false, (c :: rest).drop 5)
      else if (c :: rest).take 4 = ['n', 'u', 'l', 'l'] then
        some (.null, (c :: rest).drop 4)
      else
        match parseNumberLexeme (c :: rest) with
        | some (s, r) => some (.num s, r)
        | none => none

def parseMembers : Nat → List Char → Option (List (String × JValue) × List Char)
  | 0, _ => none
  | n + 1, cs =>
    match skipWs cs with
    | '"' :: rest =>
      match parseStringAux (rest.length + 1) [] rest with
      | none => none
      | some (k, r1) =>
        match skipWs r1 with
        | ':' :: r2 =>
          match parseValue n r2 with
          | none => none
          | some (v, r3) =>
            match skipWs r3 with
            | ',' :: r4 =>
              match parseMembers n r4 with
              | some (kvs, r) => some ((k, v) :: kvs, r)
              | none => none
            | '}' :: r4 => some ([(k, v)], r4)
            | _ => none
        | _ => none
    | _ => none

def parseElements : Nat → List Char → Option (List JValue × List Char)
  | 0, _ => none
  | n + 1, cs =>
    match parseValue n cs with
    | none => none
    | some (v, r1) =>
      match skipWs r1 with
      | ',' :: r2 =>
        match parseElements n r2 with
        | some (xs, r) => some (v :: xs, r)
        | none => none
      | ']' :: r2 => some ([v], r2)
      | _ => none

end

/-- A whole-document strict parse (`orjson.loads` / `json.loads`): the
value must be followed only by whitespace. -/
def jsonLoads (cs : List Char) : Option JValue :=
  match parseValue (cs.length + 1) cs with
  | some (v, rest) => if skipWs rest = [] then some v else none
  | none => none

/-! ## Response normalizer (main.py)

`process_lesson_content`, the inline normalization in `structured_lesson`,
`process_sections`, `process_quiz`, and the pieces of the response
assembly.  Python string scanning is modelled on `List Char`. -/

/-- Python `str.find(sub)`: index of the first occurrence, scanning left
to right. -/
def strFindFrom (needle : List Char) : List Char → Nat → Option Nat
  | [], i => if needle.isEmpty then some i else none
  | c :: t, i =>
    if needle.isPrefixOf (c :: t) then some i
    else strFindFrom needle t (i + 1)

def strFind (hay needle : List Char) : Option Nat := strFindFrom needle hay 0

/-- Python `str.rfind(ch)`: index of the last occurrence of a character. -/
def rFindIdx (l : List Char) (c : Char) : Option Nat :=
  match l.reverse.findIdx? (fun x => x = c) with
  | some j => some (l.length - 1 - j)
  | none => none

/-- The markdown-fence extraction shared by `process_lesson_content` and
`structured_lesson`: if "```json" occurs, take the text between it and the
next "```" and strip it; otherwise the same for a bare "```" fence; if the
closing fence is missing the content is left unchanged. -/
def extractFenced (content : List Char) : List Char :=
  match strFind content ("```json".data) with
  | some i =>
    let afterStart := content.drop (i + 7)
    match strFind afterStart ("```".data) with
    | some j => stripChars (afterStart.take j)
    | none => content
  | none =>
    match strFind content ("```".data) with
    | some i =>
      let afterStart := content.drop (i + 3)
      match strFind afterStart ("```".data) with
      | some j => stripChars (afterStart.take j)
      | none => content
    | none => content

/-- Brace-boundary slicing: when the text does not already start with `{`
and end with `}`, slice from the first `{` to the last `}` if that span is
nonempty. -/
def sliceBraces (content : List Char) : List Char :=
  if content.headD ' ' = '{' ∧ content.getLastD ' ' = '}' then content
  else
    match content.findIdx? (fun c => c = '{'), rFindIdx content '}' with
    | some s, some e => if s < e then (content.take (e + 1)).drop s else content
    | _, _ => content

/-- `re.sub(r'[\x00-\x1f\x7f-\x9f]', '', content)`. -/
def removeCtl (l : List Char) : List Char :=
  l.filter (fun c => ! (c.toNat ≤ 31 || (127 ≤ c.toNat && c.toNat ≤ 159)))

/-- `content.replace('\n','\\n').replace('\r','\\r').replace('\t','\\t')`. -/
def escapeCtl (l : List Char) : List Char :=
  l.foldr (fun c acc =>
    if c = '\n' then '\\' :: 'n' :: acc
    else if c = '\r' then '\\' :: 'r' :: acc
    else if c = '\t' then '\\' :: 't' :: acc
    else c :: acc) []

/-- `re.sub(r',(\s*[}\]])', r'\1', content)`: delete any comma that is
followed by optional whitespace and a closing bracket or brace. -/
def removeTrailingCommasAux : Nat → List Char → List Char
  | 0, l => l
  | _ + 1, [] => []
  | n + 1, c :: cs =>
    if c = ',' then
      match cs.dropWhile isPyWhitespace with
      | b :: _ =>
        if b = '}' ∨ b = ']' then removeTrailingCommasAux n cs
        else c :: removeTrailingCommasAux n cs
      | [] => c :: removeTrailingCommasAux n cs
    else c :: removeTrailingCommasAux n cs

def removeTrailingCommas (l : List Char) : List Char :=
  removeTrailingCommasAux l.length l

/-- Model of `process_lesson_content(content, topic)` (main.py): strip,
unfence, locate object braces, then strict-parse with one repair retry
(control-character removal, newline escaping, trailing-comma removal); on
irrecoverable failure `None`.  The `topic` argument is only used for
logging. -/
def process_lesson_content (content : String) : Option JValue :=
  let c1 := stripChars content.data
  let c2 := extractFenced c1
  let c3 := sliceBraces c2
  if c3.headD ' ' = '{' ∧ c3.getLastD ' ' = '}' then
    match jsonLoads c3 with
    | some data => some data
    | none =>
      let r := removeTrailingCommas (escapeCtl (removeCtl c3))
      jsonLoads r
  else none

/-- `dict.get(k)` on a parsed JSON object (for duplicate keys Python keeps
the last binding, hence the reverse scan). -/
def objGet (v : JValue) (k : String) : Option JValue :=
  match v with
  | .obj kvs => (kvs.reverse.find? (fun p => p.1 == k)).map Prod.snd
  | _ => none

def jStr? : JValue → Option String
  | .str s => some s
  | _ => none

/-- Python truthiness of a JSON value (for `.num`, exact for standard
lexemes: truthy iff a nonzero digit occurs). -/
def jTruthy : JValue → Bool
  | .null => false
  | .bool b => b
  | .str s => ! s.isEmpty
  | .num lex => lex.data.any (fun c => '1' ≤ c ∧ c ≤ '9')
  | .arr xs => ! xs.isEmpty
  | .obj kvs => ! kvs.isEmpty

/-- Model of `process_sections(data)` (main.py): collect dict elements of
`data["sections"]` having both "title" and "content" (`SectionItem` is a
pydantic model with string fields, so a non-string value raises, modelled
as `none`), then append a "Diagram Description" section when
`diagram_description` is truthy.  A non-list `sections` value or non-dict
`data` raises (`none`). -/
def process_sections (data : JValue) : Option (List SectionItem) :=
  match data with
  | .obj _ =>
    let secs? : Option (List JValue) := match objGet data "sections" with
      | some (.arr xs) => some xs
      | none => some []
      | some _ => none
    match secs? with
    | none => none
    | some secs =>
      let base? := secs.foldr (fun sec acc =>
        match acc with
        | none => none
        | some acc =>
          match sec with
          | .obj _ =>
            match objGet sec "title", objGet sec "content" with
            | some tv, some cv =>
              match jStr? tv, jStr? cv with
              | some t, some c => some ((⟨t, c⟩ : SectionItem) :: acc)
              | _, _ => none
            | _, _ => some acc
          | _ => some acc) (some [])
      match base? with
      | none => none
      | some base =>
        match objGet data "diagram_description" with
        | some dv =>
          if jTruthy dv then
            match jStr? dv with
            | some ds => some (base ++ [⟨"Diagram Description", ds⟩])
            | none => none
          else some base
        | none => some base
  | _ => none

/-- Quiz entries as built by `process_quiz` — plain dicts (the endpoint
declares `quiz: List[dict]`), so the three values are kept raw. -/
structure MainQuizItem where
  q : JValue
  options : JValue
  answer : JValue

/-- Model of `process_quiz(data)` (main.py): dict elements of
`data["quiz_questions"]` containing "question", "options" and
"correct_answer", remapped to q/options/answer.  A non-list value or
non-dict `data` raises (`none`). -/
def process_quiz (data : JValue) : Option (List MainQuizItem) :=
  match data with
  | .obj _ =>
    match objGet data "quiz_questions" with
    | some (.arr xs) =>
      some (xs.foldr (fun q acc =>
        match q with
        | .obj _ =>
          match objGet q "question", objGet q "options", objGet q "correct_answer" with
          | some qq, some oo, some aa => (⟨qq, oo, aa⟩ : MainQuizItem) :: acc
          | _, _, _ => acc
        | _ => acc) [])
    | none => some []
    | some _ => none
  | _ => none

/-! ## The `/api/structured-lesson` endpoint (main.py) and the chat-route
compute (chat.py) -/

def SOCIAL_REPLY : String :=
  "Hey dear! 👋 I\x27m Lana — what would you like to learn today?"

/-- Model of `is_social_greeting(topic)` (main.py). -/
def is_social_greeting (topic : String) : Bool :=
  ["hello", "hi", "hey", "thank", "thanks", "good morning", "good afternoon",
   "good evening", "how are you"].contains (pyStrip (pyLower topic))

/-- Python `str(...)` of a scalar JSON value as interpolated by the
f-string building `intro_str`; containers are abbreviated (no claim
touches that branch). -/
def pyStr : JValue → String
  | .str s => s
  | .num lex => lex
  | .bool true => "True"
  | .bool false => "False"
  | .null => "None"
  | .arr _ => "[...]"
  | .obj _ => "{...}"

/-- The `intro_str` computation inside `structured_lesson`: for a dict
`data["introduction"]`,
`f"{intro.get('definition','')}\n{intro.get('relevance','')}".strip()`;
otherwise `None`. -/
def intro_str (data : JValue) : Option String :=
  match objGet data "introduction" with
  | some (.obj kvs) =>
    let d := match objGet (.obj kvs) "definition" with
      | some v => pyStr v
      | none => ""
    let r := match objGet (.obj kvs) "relevance" with
      | some v => pyStr v
      | none => ""
    some (String.mk (stripChars (d ++ "\n" ++ r).data))
  | _ => none

/-- The classifications list comprehension in `structured_lesson`
(pydantic `ClassificationItem` has string fields; a present-but-non-string
value raises, modelled `none`). -/
def classificationsOf (data : JValue) : Option (List ClassificationItem) :=
  match data with
  | .obj _ =>
    match objGet data "classifications" with
    | some (.arr xs) =>
      xs.foldr (fun c acc =>
        match acc with
        | none => none
        | some acc =>
          match c with
          | .obj _ =>
            match objGet c "type", objGet c "description" with
            | some tv, some dv =>
              match jStr? tv, jStr? dv with
              | some t, some d => some ((⟨t, d⟩ : ClassificationItem) :: acc)
              | _, _ => none
            | _, _ => some acc
          | _ => some acc) (some [])
    | none => some []
    | some _ => none
  | _ => none

/-- `data.get("diagram_description", "")` as validated by the response
model's `diagram: str` field. -/
def diagramOf (data : JValue) : Option String :=
  match objGet data "diagram_description" with
  | some v => jStr? v
  | none => some ""

/-- main.py's response model (no `id` field, `quiz: List[dict]`). -/
structure MainLessonResponse where
  introduction : Option String
  classifications : List ClassificationItem
  sections : List SectionItem
  diagram : String
  quiz : List MainQuizItem

structure HTTPError where
  status_code : Nat
  detail : String
  deriving Repr, DecidableEq

/-- The social-greeting response built inline in `structured_lesson`. -/
def socialLessonResponse : MainLessonResponse :=
  { introduction := some SOCIAL_REPLY
    classifications := []
    sections := [⟨"Friendly Note", SOCIAL_REPLY⟩]
    diagram := "No diagram needed for a friendly chat."
    quiz := [⟨.str "What would you like to learn next?",
      .arr [.str "A) Science", .str "B) History", .str "C) Anything"],
      .str "C) Anything"⟩] }

/-- The deterministic fallback `data` dict built when both parses fail
(note it uses the raw `body.topic`, and a `"quiz"` key although
`process_quiz` reads `"quiz_questions"`). -/
def fallbackLessonData (topicRaw : String) : JValue :=
  .obj [("introduction", .obj [("definition", .str ("Learn about " ++ topicRaw)),
          ("relevance", .str "")]),
        ("sections", .arr [.obj [("title", .str ("Introduction to " ++ topicRaw)),
          ("content", .str ("Overview of " ++ topicRaw ++ "."))]]),
        ("classifications", .arr []),
        ("quiz", .arr [])]

/-- The content-normalization part of `structured_lesson`: strip, unfence,
slice braces, strict-parse, repair-retry, else the fallback dict (unlike
`process_lesson_content` there is no braces gate and no `None`). -/
def structuredLessonData (raw : String) (topicRaw : String) : JValue :=
  let c3 := sliceBraces (extractFenced (stripChars raw.data))
  match jsonLoads c3 with
  | some d => d
  | none =>
    match jsonLoads (removeTrailingCommas (escapeCtl (removeCtl c3))) with
    | some d => d
    | none => fallbackLessonData topicRaw

/-- Model of the `/api/structured-lesson` endpoint `structured_lesson`
(main.py).  I/O is explicit: `cached` is the `get_cache` result and `llm`
the outcome of the Groq call (`.error e` = transport error/timeout with
`str(e) = e`); the `age` only shapes the prompt inside the abstracted
call, and the cache write on success is a side effect outside the returned
value.  Any exception inside the `try` block is re-raised as
`HTTPException(500, str(e))` — in particular an upstream transport error
is surfaced as a 500, not recovered. -/
def structured_lesson (cached : Option MainLessonResponse) (topicRaw : String)
    (llm : Except String String) : Except HTTPError MainLessonResponse :=
  let topic := pyStrip topicRaw
  match cached with
  | some r => .ok r
  | none =>
    if is_social_greeting topic then .ok socialLessonResponse
    else
      match llm with
      | .error e => .error ⟨500, e⟩
      | .ok raw =>
        let data := structuredLessonData raw topicRaw
        match classificationsOf data, diagramOf data with
        | some cls, some dg =>
          .ok { introduction := intro_str data
                classifications := cls
                sections := (process_sections data).getD []
                diagram := dg
                quiz := (process_quiz data).getD [] }
        | _, _ => .error ⟨500, "pydantic validation error"⟩

/-- The quality gate of `_compute_structured_lesson` (chat.py), verbatim:
at least one section, one of them with more than 10 characters of content;
when a quiz is present, additionally `len(quiz) >= 1`. -/
def hasMinimalContent (resp : StructuredLessonResponse) : Bool :=
  let base := (! resp.sections.isEmpty) && decide (1 ≤ resp.sections.length)
    && resp.sections.any (fun s => decide (10 < s.content.length))
  if ! resp.quiz.isEmpty then base && decide (1 ≤ resp.quiz.length) else base

/-- Model of `_compute_structured_lesson` (chat.py).  The Groq call plus
JSON parsing and field mapping is abstracted as `attempt` (`.error` = any
exception raised inside the `try`: transport error, unrepairable JSON —
also the `NameError` on the function's unimported `uuid`); low-quality
responses and all exceptions fall back to `_stub_lesson`, returned with a
success status and tag "stub". -/
def compute_structured_lesson (groqAvailable : Bool)
    (attempt : Except String StructuredLessonResponse)
    (topic : String) (age : Option Int) (uuidStub : String) :
    StructuredLessonResponse × String :=
  if groqAvailable then
    match attempt with
    | .ok resp =>
      if hasMinimalContent resp then (resp, "llm")
      else (stubLesson topic age uuidStub, "stub")
    | .error _ => (stubLesson topic age uuidStub, "stub")
  else (stubLesson topic age uuidStub, "stub")

set_option maxRecDepth 100000 in
/-- C10: on the fenced input with a trailing comma, the extracted content
fails the direct strict parse (trailing comma), the repair retry succeeds,
and the structured result has exactly one section, titled "A" (with the
original content). -/
theorem C10_normalizer_repair :
    ((jsonLoads (sliceBraces (extractFenced (stripChars
        ("```json\n\x7b\"sections\":[\x7b\"title\":\"A\",\"content\":\"Some content here\"\x7d],\x7d\n```").data)))).isSome = false)
    ∧ ((process_lesson_content
        "```json\n\x7b\"sections\":[\x7b\"title\":\"A\",\"content\":\"Some content here\"\x7d],\x7d\n```").bind process_sections =
        some [⟨"A", "Some content here"⟩]) := by
  exact ⟨rfl, rfl⟩

/-- C2 counterexample: on a cache miss for a non-social topic, a transport
error from the Groq call inside `/api/structured-lesson` (main.py) is
re-raised as `HTTPException(500, str(e))` — a hard non-2xx failure
surfaced to the user, not the stub with a success status. -/
theorem C2_transport_error_counterexample :
    structured_lesson none "Quantum Physics" (.error "upstream timeout") =
      .error ⟨500, "upstream timeout"⟩ := by
  rfl

/-- C2 (amended): the chat-route compute `_compute_structured_lesson`
never surfaces an upstream failure — any exception yields the
deterministic stub lesson tagged "stub", returned as a plain success
value.  The `/api/structured-lesson` endpoint in main.py, however,
surfaces upstream transport errors as HTTP 500 on cache misses for
non-social topics (only malformed-output failures fall back to stub data
there), so "never a hard failure" holds for the chat route but not for
every request. -/
theorem C2_fallback_semantics (groqAvailable : Bool) (e : String)
    (topic : String) (age : Option Int) (u : String)
    (topic2 e2 : String)
    (hsoc : is_social_greeting (pyStrip topic2) = false) :
    (compute_structured_lesson groqAvailable (.error e) topic age u =
      (stubLesson topic age u, "stub"))
    ∧ (structured_lesson none topic2 (.error e2) = .error ⟨500, e2⟩) := by
  constructor
  · cases groqAvailable
    · rfl
    · rfl
  · simp [structured_lesson, hsoc]

set_option maxRecDepth 100000 in
/-- Witness for C2_fallback_semantics at concrete inputs. -/
theorem C2_fallback_semantics_witness :
    (compute_structured_lesson true (.error "timeout") "Photosynthesis"
      (some 10) "u1" = (stubLesson "Photosynthesis" (some 10) "u1", "stub"))
    ∧ (structured_lesson none "Photosynthesis" (.error "timeout") =
      .error ⟨500, "timeout"⟩) :=
  C2_fallback_semantics true "timeout" "Photosynthesis" (some 10) "u1"
    "Photosynthesis" "timeout" (by decide)

end Spec2Proof
